import Mathlib

set_option maxRecDepth 20000

/-!
Verification development for the multi-provider inference fallback
orchestrator of the backend under study.

The definitions below are a shallow embedding of the Python sources:
  * backend/app/services/bedrock.py      (BedrockService)
  * backend/app/services/minimax_chat.py (MiniMaxChat)
  * backend/app/services/debate_orchestrator.py (the split of the system
    message performed by the private helper that feeds the providers)
  * backend/app/routers/health.py        (timeouts of the live key probes)

Network traffic is abstracted by oracles: a function from the request
coordinates (token, region, model id) to the HTTP outcome for the direct
HTTP paths, and a separate oracle for the boto3 path.  Python exceptions
are modelled by the `Err` type; the distinction between RuntimeError
(caught by the fallback loops) and every other exception class (which
escapes the loops that only catch RuntimeError) is preserved.  Each run
returns the ordered trace of attempted network calls, the captured error
list and the final outcome, so that temporal statements (what was
attempted, in which order) can be expressed.
-/

/-- A chat message, `{role, content}` as used throughout the backend. -/
structure Message where
  role : String
  content : String
deriving DecidableEq, Repr

/-- One content block of a provider response.  `type` models the optional
result of the Python `b.get("type")`; `text` is `some t` exactly when the
block object has a `text` entry (so `none` makes `b["text"]` raise). -/
structure Block where
  type : Option String
  text : Option String
deriving DecidableEq, Repr

/-- The optional `usage` object of a provider response. -/
structure UsageData where
  input_tokens : Option Nat
  output_tokens : Option Nat
deriving DecidableEq, Repr

/-- A decoded 200-response body, the dict handed to `_parse_response`. -/
structure RespData where
  content : List Block
  model : Option String
  usage : Option UsageData
  stop_reason : Option String
deriving DecidableEq, Repr

/-- The normalized success record returned by every provider client:
`{"content", "model", "input_tokens", "output_tokens", "stop_reason"}`. -/
structure InvocationResult where
  content : String
  model : String
  input_tokens : Nat
  output_tokens : Nat
  stop_reason : String
deriving DecidableEq, Repr

/-- Python exceptions, separated by how the orchestrator treats them:
`runtime` is RuntimeError (caught by the candidate loops), `keyError` is
the KeyError raised by `b["text"]`, `other` is any other exception class
(httpx transport errors, boto3 client errors, ...). -/
inductive Err where
  | runtime (msg : String)
  | keyError (msg : String)
  | other (msg : String)
deriving DecidableEq, Repr

/-- The Python `str(e)` of an exception, as used in f-strings. -/
def Err.toMessage : Err → String
  | .runtime m => m
  | .keyError m => m
  | .other m => m

/-- Outcome of one direct HTTP POST: either a decoded response with a
status code, raw text and (for 200) a parsed JSON body, or a transport
exception (timeout, connection failure) raised by the HTTP client. -/
inductive HttpOutcome where
  | resp (status : Nat) (text : String) (data : RespData)
  | exn (e : Err)

/-- Network oracle for `_http_invoke`: token, region, model id ↦ outcome. -/
def Net := String → String → String → HttpOutcome

/-- Outcome of one boto3 `invoke_model` call: decoded body or the string
of the raised exception. -/
inductive BotoOutcome where
  | ok (data : RespData)
  | exn (msg : String)

/-- Network oracle for the boto3 path: region, model id ↦ outcome. -/
def BotoNet := String → String → BotoOutcome

/-- Scan of `containsSub`: does the needle start at some position? -/
def containsSubAux (needle : List Char) : List Char → Bool
  | [] => needle.isEmpty
  | c :: rest => needle.isPrefixOf (c :: rest) || containsSubAux needle rest

/-- Boolean substring test, `needle in hay` of Python. -/
def containsSub (needle hay : String) : Bool :=
  containsSubAux needle.toList hay.toList

/-- Python `str.lower()`: map `Char.toLower` over the characters (the
definition of `String.toLower`, stated structurally so it computes). -/
def strLower (s : String) : String :=
  String.mk (s.data.map Char.toLower)

/-- The configuration fields of `Settings` the Bedrock service reads.
Pydantic defaults every field to `""`, and the service tests plain
truthiness, so the empty string models an absent credential. -/
structure Settings where
  aws_bearer_token_bedrock : String
  aws_access_key_id : String
  aws_secret_access_key : String
  aws_session_token : String
  aws_bedrock_api_key_backup : String
deriving DecidableEq, Repr

namespace Bedrock

/-- Inference profile ARN of the hackathon account (bedrock.py). -/
def HACKATHON_PROFILE_ARN : String :=
  "arn:aws:bedrock:us-west-2:283845804869:inference-profile/global.anthropic.claude-sonnet-4-20250514-v1:0"

/-- Inference profile id of the hackathon account (bedrock.py). -/
def HACKATHON_PROFILE_ID : String := "global.anthropic.claude-sonnet-4-20250514-v1:0"

/-- Personal-account cross-region model id, bedrock.py MODEL_SONNET_46. -/
def MODEL_SONNET_46 : String := "us.anthropic.claude-sonnet-4-6"

/-- bedrock.py MODEL_HAIKU_35. -/
def MODEL_HAIKU_35 : String := "us.anthropic.claude-3-5-haiku-20241022-v1:0"

/-- bedrock.py MODEL_HAIKU_3. -/
def MODEL_HAIKU_3 : String := "anthropic.claude-3-haiku-20240307-v1:0"

/-- bedrock.py MAX_TOKENS. -/
def MAX_TOKENS : Nat := 2048

/-- bedrock.py SYSTEM_PROMPT, the default system prompt. -/
def SYSTEM_PROMPT : String :=
  "You are OpsVoice, a versatile AI assistant powered by Claude. You can help with anything: coding, writing, brainstorming, analysis, storytelling, infrastructure ops, debugging, creative projects, and more. Keep responses clear and natural — they will be spoken aloud via text-to-speech. Use conversational language, vary your sentence length, and be engaging. Be helpful, knowledgeable, and adaptive to whatever the user needs."

/-- bedrock.py ABSK_FALLBACK_CHAIN: the ordered (region, model) candidates
tried under the personal ABSK key. -/
def ABSK_FALLBACK_CHAIN : List (String × String) :=
  [("us-west-2", MODEL_SONNET_46),
   ("us-east-1", MODEL_SONNET_46),
   ("us-west-2", MODEL_HAIKU_35),
   ("us-east-1", MODEL_HAIKU_35),
   ("us-east-1", MODEL_HAIKU_3)]

/-- bedrock.py BEARER_FALLBACK_CHAIN: candidates tried under the
hackathon bearer token. -/
def BEARER_FALLBACK_CHAIN : List (String × String) :=
  [("us-west-2", HACKATHON_PROFILE_ID),
   ("us-west-2", "us.anthropic.claude-sonnet-4-20250514-v1:0"),
   ("us-west-2", MODEL_HAIKU_35)]

/-- The attempt list of `_invoke_boto3_hackathon` (bedrock.py). -/
def botoAttempts : List (String × String) :=
  [("us-west-2", HACKATHON_PROFILE_ARN),
   ("us-west-2", HACKATHON_PROFILE_ID),
   ("us-west-2", "us.anthropic.claude-sonnet-4-20250514-v1:0")]

/-- The three credential descriptors of the service, in priority order. -/
inductive Cred where
  | bearer
  | boto3
  | absk
deriving DecidableEq, Repr

/-- Python `system or SYSTEM_PROMPT`: `None` and the empty string both
fall back to the default. -/
def orDefault (s : Option String) (d : String) : String :=
  match s with
  | none => d
  | some v => if v = "" then d else v

/-- The wire payload produced by `BedrockService._build_body`. -/
structure Body where
  anthropic_version : String
  max_tokens : Nat
  system : String
  messages : List Message
deriving DecidableEq, Repr

/-- The builder `BedrockService._build_body(messages, system)`. -/
def build_body (messages : List Message) (system : Option String) : Body :=
  ⟨"bedrock-2023-05-31", MAX_TOKENS, orDefault system SYSTEM_PROMPT, messages⟩

/-- The text parts extracted by the comprehension
`[b["text"] for b in content_blocks if b.get("type") == "text"]`;
a text-typed block without a `text` entry raises KeyError (Python renders
str(KeyError) with quotes around the key, omitted here). -/
def textParts : List Block → Except Err (List String)
  | [] => .ok []
  | b :: rest =>
      if b.type = some "text" then
        match b.text with
        | none => .error (.keyError "text")
        | some t =>
            match textParts rest with
            | .ok parts => .ok (t :: parts)
            | .error e => .error e
      else textParts rest

/-- The parser `BedrockService._parse_response(data)`. -/
def parseResponse (data : RespData) : Except Err InvocationResult :=
  match textParts data.content with
  | .error e => .error e
  | .ok parts =>
      let usage := data.usage.getD ⟨none, none⟩
      .ok ⟨if parts = [] then "" else String.intercalate "\n" parts,
           data.model.getD MODEL_SONNET_46,
           usage.input_tokens.getD 0,
           usage.output_tokens.getD 0,
           data.stop_reason.getD ""⟩

/-- The message of the RuntimeError raised by `_http_invoke` on a non-200
status: the status, the attempt label and the first 200 characters of the
response body. -/
def httpFailMsg (status : Nat) (label : String) (text : String) : String :=
  toString status ++ " [" ++ label ++ "]: " ++ text.take 200

/-- The call `BedrockService._http_invoke`: one HTTP POST; non-200 raises a
RuntimeError with the truncated body, 200 is parsed (a malformed body
propagates the KeyError of `_parse_response`), transport errors propagate
as raised by the client. -/
def httpInvoke (net : Net) (token region model label : String) : Except Err InvocationResult :=
  match net token region model with
  | .exn e => .error e
  | .resp status text data =>
      if status = 200 then parseResponse data
      else .error (.runtime (httpFailMsg status label text))

/-- One recorded network attempt of a run: which credential descriptor
issued it, the (region, model) candidate, the request body it carried,
and what the attempt produced. -/
structure Attempt where
  method : Cred
  region : String
  model : String
  body : Body
  outcome : Except Err InvocationResult

/-- Stop condition of the bearer chain: the account-wide
WSParticipantRole block or a hard 403 in the error text. -/
def bearerStop (err : String) : Bool :=
  (containsSub "not authorized" (strLower err) && containsSub "WSParticipantRole" err)
  || (containsSub "403" err && (containsSub "AccessDenied" err || containsSub "Forbidden" err))

/-- Stop condition of the ABSK chain: outright token rejection. -/
def abskStop (err : String) : Bool :=
  containsSub "authentication failed" (strLower err)
  && !containsSub "bedrock-api-key" (strLower err)

/-- Fast-fail condition of the boto3 chain: account-wide IAM block. -/
def botoFastFail (err : String) : Bool :=
  containsSub "not authorized" (strLower err) || containsSub "AccessDenied" err

/-- Candidate loop of `_invoke_bearer_chain`: try each (region, model);
a RuntimeError is remembered and, when `bearerStop` matches, the
remaining candidates are abandoned; any other exception propagates; the
last error is re-raised when the list is exhausted. -/
def bearerChainGo (net : Net) (token : String) (messages : List Message)
    (system : Option String) :
    List (String × String) → Err → List Attempt × Except Err InvocationResult
  | [], last => ([], .error last)
  | (region, model) :: rest, _ =>
      match httpInvoke net token region model ("bearer_hackathon/" ++ region) with
      | .ok r =>
          ([⟨.bearer, region, model, build_body messages system, .ok r⟩], .ok r)
      | .error (.runtime m) =>
          if bearerStop m then
            ([⟨.bearer, region, model, build_body messages system, .error (.runtime m)⟩],
             .error (.runtime m))
          else
            match bearerChainGo net token messages system rest (.runtime m) with
            | (tr, res) =>
                (⟨.bearer, region, model, build_body messages system, .error (.runtime m)⟩ :: tr,
                 res)
      | .error e =>
          ([⟨.bearer, region, model, build_body messages system, .error e⟩], .error e)

/-- The method `BedrockService._invoke_bearer_chain`. -/
def bearerChain (net : Net) (token : String) (messages : List Message)
    (system : Option String) : List Attempt × Except Err InvocationResult :=
  bearerChainGo net token messages system BEARER_FALLBACK_CHAIN (.runtime "empty bearer chain")

/-- Candidate loop of `_invoke_absk_chain`; same shape as the bearer
chain with the ABSK stop condition and labels. -/
def abskChainGo (net : Net) (token : String) (messages : List Message)
    (system : Option String) :
    List (String × String) → Err → List Attempt × Except Err InvocationResult
  | [], last => ([], .error last)
  | (region, model) :: rest, _ =>
      match httpInvoke net token region model ("absk_personal/" ++ region) with
      | .ok r =>
          ([⟨.absk, region, model, build_body messages system, .ok r⟩], .ok r)
      | .error (.runtime m) =>
          if abskStop m then
            ([⟨.absk, region, model, build_body messages system, .error (.runtime m)⟩],
             .error (.runtime m))
          else
            match abskChainGo net token messages system rest (.runtime m) with
            | (tr, res) =>
                (⟨.absk, region, model, build_body messages system, .error (.runtime m)⟩ :: tr,
                 res)
      | .error e =>
          ([⟨.absk, region, model, build_body messages system, .error e⟩], .error e)

/-- The method `BedrockService._invoke_absk_chain`. -/
def abskChain (net : Net) (token : String) (messages : List Message)
    (system : Option String) : List Attempt × Except Err InvocationResult :=
  abskChainGo net token messages system ABSK_FALLBACK_CHAIN (.runtime "empty ABSK chain")

/-- Candidate loop of `_invoke_boto3_hackathon`: every exception of an
attempt (including a parse failure of a 200 body) is caught; when
`botoFastFail` matches its string the loop raises a RuntimeError with the
truncated text, otherwise it continues; the last exception is re-raised
at the end. -/
def botoChainGo (boto : BotoNet) (messages : List Message) (system : Option String) :
    List (String × String) → Err → List Attempt × Except Err InvocationResult
  | [], last => ([], .error last)
  | (region, model) :: rest, _ =>
      match boto region model with
      | .ok data =>
          match parseResponse data with
          | .ok r =>
              ([⟨.boto3, region, model, build_body messages system, .ok r⟩], .ok r)
          | .error e =>
              if botoFastFail e.toMessage then
                ([⟨.boto3, region, model, build_body messages system, .error e⟩],
                 .error (.runtime ("boto3 hackathon IAM block: " ++ e.toMessage.take 200)))
              else
                match botoChainGo boto messages system rest e with
                | (tr, res) =>
                    (⟨.boto3, region, model, build_body messages system, .error e⟩ :: tr, res)
      | .exn m =>
          if botoFastFail m then
            ([⟨.boto3, region, model, build_body messages system, .error (.other m)⟩],
             .error (.runtime ("boto3 hackathon IAM block: " ++ m.take 200)))
          else
            match botoChainGo boto messages system rest (.other m) with
            | (tr, res) =>
                (⟨.boto3, region, model, build_body messages system, .error (.other m)⟩ :: tr,
                 res)

/-- The method `BedrockService._invoke_boto3_hackathon`. -/
def botoChain (boto : BotoNet) (messages : List Message)
    (system : Option String) : List Attempt × Except Err InvocationResult :=
  botoChainGo boto messages system botoAttempts (.runtime "boto3 hackathon: empty chain")

/-- Result of one descriptor step inside `invoke`: a success, a failure
caught by the surrounding handler (recorded in `errors`), an exception
the handler does not catch (escapes `invoke`), or a skipped descriptor. -/
inductive StepRes where
  | success (r : InvocationResult)
  | captured (entry : String)
  | fatal (e : Err)
  | skipped

/-- The error entries a step contributes to the `errors` list. -/
def stepErrors : StepRes → List String
  | .captured m => [m]
  | _ => []

/-- Descriptor 1 of `invoke`: the hackathon bearer token.  Only
RuntimeError is caught (`except RuntimeError`). -/
def runKey1 (s : Settings) (net : Net) (messages : List Message)
    (system : Option String) : List Attempt × StepRes :=
  if s.aws_bearer_token_bedrock ≠ "" then
    match bearerChain net s.aws_bearer_token_bedrock messages system with
    | (tr, .ok r) => (tr, .success r)
    | (tr, .error (.runtime m)) => (tr, .captured ("bearer: " ++ m))
    | (tr, .error e) => (tr, .fatal e)
  else ([], .skipped)

/-- Descriptor 2 of `invoke`: the hackathon IAM session via boto3.  Every
exception is caught (`except Exception`). -/
def runKey2 (s : Settings) (boto : BotoNet) (messages : List Message)
    (system : Option String) : List Attempt × StepRes :=
  if s.aws_access_key_id ≠ "" ∧ s.aws_secret_access_key ≠ "" then
    match botoChain boto messages system with
    | (tr, .ok r) => (tr, .success r)
    | (tr, .error e) => (tr, .captured ("boto3_event: " ++ e.toMessage))
  else ([], .skipped)

/-- Descriptor 3 of `invoke`: the personal ABSK key.  Only RuntimeError
is caught. -/
def runKey3 (s : Settings) (net : Net) (messages : List Message)
    (system : Option String) : List Attempt × StepRes :=
  if s.aws_bedrock_api_key_backup ≠ "" then
    match abskChain net s.aws_bedrock_api_key_backup messages system with
    | (tr, .ok r) => (tr, .success r)
    | (tr, .error (.runtime m)) => (tr, .captured ("absk: " ++ m))
    | (tr, .error e) => (tr, .fatal e)
  else ([], .skipped)

/-- The aggregate RuntimeError message raised when every descriptor
failed: a fixed diagnostic preamble plus the first three captured
entries joined with a semicolon. -/
def allFailedMsg (errors : List String) : String :=
  "All Bedrock methods failed. Hackathon: WSParticipantRole needs bedrock:InvokeModel (ask AWS booth). Personal ABSK: ensure model access is enabled for account 655366068864. Details: "
  ++ String.intercalate "; " (errors.take 3)

/-- Descriptors 2 and 3 of `invoke`, entered with the error entries
captured so far. -/
def runKey23 (s : Settings) (net : Net) (boto : BotoNet) (messages : List Message)
    (system : Option String) (errs : List String) :
    List Attempt × List String × Except Err InvocationResult :=
  match runKey2 s boto messages system with
  | (t2, .success r) => (t2, errs, .ok r)
  | (t2, .fatal e) => (t2, errs, .error e)
  | (t2, s2) =>
      let errs2 := errs ++ stepErrors s2
      match runKey3 s net messages system with
      | (t3, .success r) => (t2 ++ t3, errs2, .ok r)
      | (t3, .fatal e) => (t2 ++ t3, errs2, .error e)
      | (t3, s3) =>
          let errs3 := errs2 ++ stepErrors s3
          (t2 ++ t3, errs3, .error (.runtime (allFailedMsg errs3)))

/-- The entry point `BedrockService.invoke(messages, system)`: descriptors in priority
order, first success wins, caught failures are collected, exhaustion
raises the aggregate RuntimeError.  Returns the trace of network
attempts, the captured error list at the moment of return, and the
outcome. -/
def invokeRun (s : Settings) (net : Net) (boto : BotoNet) (messages : List Message)
    (system : Option String) :
    List Attempt × List String × Except Err InvocationResult :=
  match runKey1 s net messages system with
  | (t1, .success r) => (t1, [], .ok r)
  | (t1, .fatal e) => (t1, [], .error e)
  | (t1, s1) =>
      match runKey23 s net boto messages system (stepErrors s1) with
      | (tr, errs, res) => (t1 ++ tr, errs, res)

end Bedrock

namespace MiniMax

/-- minimax_chat.py MODEL_CHAIN, tried fastest first. -/
def MODEL_CHAIN : List String :=
  ["MiniMax-M2.5-highspeed", "MiniMax-M2.5", "MiniMax-M2.1-highspeed"]

/-- minimax_chat.py MAX_TOKENS. -/
def MAX_TOKENS : Nat := 2048

/-- minimax_chat.py SYSTEM_PROMPT. -/
def SYSTEM_PROMPT : String :=
  "You are OpsVoice, an expert AI assistant for cloud infrastructure operations. You help engineers monitor, diagnose, and resolve infrastructure issues. Keep responses concise and actionable — they may be spoken aloud via text-to-speech. Speak like a senior SRE briefing their team."

/-- An SDK response of the Anthropic-compatible endpoint: content blocks
plus optional usage counters and stop reason (absent attributes are
`none`, matching the getattr defaults). -/
structure MMResp where
  content : List Block
  usage_input : Option Nat
  usage_output : Option Nat
  stop_reason : Option String
deriving DecidableEq, Repr

/-- Outcome of one `client.messages.create` call: a response object or
the string of the raised exception. -/
inductive MMOutcome where
  | ok (resp : MMResp)
  | exn (msg : String)

/-- Network oracle for the MiniMax client: model id ↦ outcome (the other
request fields are fixed within one `invoke` call). -/
def MMNet := String → MMOutcome

/-- The content accumulation loop of `MiniMaxChat.invoke`:
`content += block.text` for every block having a `text` attribute, with
no separator. -/
def extractContent (blocks : List Block) : String :=
  blocks.foldl (fun acc b =>
    match b.text with
    | some t => acc ++ t
    | none => acc) ""

/-- Continue-to-next-model condition of `MiniMaxChat.invoke`. -/
def modelNotFound (err : String) : Bool :=
  containsSub "model_not_found" (strLower err) || containsSub "404" err

/-- Model loop of `MiniMaxChat.invoke`: first success returns the
normalized record; a failure matching `modelNotFound` continues to the
next model, any other failure raises immediately with the error text
truncated to 150 characters; exhaustion raises with the last error. -/
def invokeGo (mm : MMNet) : List String → Err → List String × Except Err InvocationResult
  | [], last => ([], .error (.runtime ("All MiniMax models failed: " ++ last.toMessage)))
  | model :: rest, _ =>
      match mm model with
      | .ok resp =>
          ([model],
           .ok ⟨extractContent resp.content,
                "minimax/" ++ model,
                resp.usage_input.getD 0,
                resp.usage_output.getD 0,
                resp.stop_reason.getD "end_turn"⟩)
      | .exn m =>
          if modelNotFound m then
            match invokeGo mm rest (.other m) with
            | (tr, res) => (model :: tr, res)
          else
            ([model],
             .error (.runtime ("MiniMax error (" ++ model ++ "): " ++ m.take 150)))

/-- The entry point `MiniMaxChat.invoke`: requires a configured API key, then walks
MODEL_CHAIN.  Returns the list of attempted models and the outcome. -/
def invoke (apiKey : String) (mm : MMNet) : List String × Except Err InvocationResult :=
  if apiKey = "" then ([], .error (.runtime "MiniMax API key not configured"))
  else invokeGo mm MODEL_CHAIN (.runtime "No models tried")

end MiniMax

namespace Debate

/-- One iteration of the message loop at the top of `_infer` in
debate_orchestrator.py: a `system`-role entry overwrites the remembered
system content, every other entry is appended to the conversation. -/
def inferStep (acc : Option String × List Message) (m : Message) :
    Option String × List Message :=
  if m.role = "system" then (some m.content, acc.2)
  else (acc.1, acc.2 ++ [m])

/-- The system-message split of `_infer`: walk the messages, remember
the content of a `system`-role entry (the last one if several), collect
the rest in order. -/
def inferSplit (messages : List Message) : Option String × List Message :=
  messages.foldl inferStep (none, [])

end Debate

namespace Bedrock

/-- The text of the text-typed blocks, in order (the value of the Python
comprehension when it does not raise). -/
def textsOf (blocks : List Block) : List String :=
  blocks.filterMap (fun b => if b.type = some "text" then b.text else none)

end Bedrock

namespace Health

/-- One outbound network call of the `/api/health/keys` live probe with
the timeout it passes to the HTTP client (`none` when the call sets no
explicit timeout). -/
structure ProbeCall where
  service : String
  timeout : Option Nat
deriving DecidableEq, Repr

/-- The probe calls of `test_keys_live` in routers/health.py, in source
order: `_http_quick` inside `test_bedrock` passes `timeout=5`; the boto3
`invoke_model` call inside `test_bedrock` sets no explicit timeout; the
MiniMax TTS probe `test_minimax` passes `timeout=15`; the two Datadog
probes pass `timeout=8`; the MiniMax chat probe `test_minimax_chat`
calls the SDK without an explicit timeout. -/
def healthProbeCalls : List ProbeCall :=
  [⟨"bedrock_http_quick", some 5⟩,
   ⟨"bedrock_boto3_invoke_model", none⟩,
   ⟨"minimax_tts_t2a", some 15⟩,
   ⟨"datadog_validate", some 8⟩,
   ⟨"datadog_dashboard", some 8⟩,
   ⟨"minimax_chat_messages_create", none⟩]

end Health

namespace Bedrock

/-- Every attempt in the trace produced an error. -/
def allFailed (tr : List Attempt) : Prop :=
  ∀ a ∈ tr, ∃ e, a.outcome = Except.error e

/-- The trace consists of failed attempts followed by one final
successful attempt whose parsed result is `r`. -/
def endsWithSuccess (tr : List Attempt) (r : InvocationResult) : Prop :=
  ∃ pre a, tr = pre ++ [a] ∧ a.outcome = Except.ok r ∧ allFailed pre

/-- A benign HTTP oracle: no transport exceptions, and every 200 body is
parseable.  This captures the standard provider behaviour presupposed
when a claim speaks of an attempt returning HTTP 200. -/
def NetBenign (net : Net) : Prop :=
  ∀ tok region model,
    (∀ e, net tok region model ≠ .exn e) ∧
    (∀ t d, net tok region model = .resp 200 t d → ∃ r, parseResponse d = .ok r)

/-- Some attempted descriptor has a first candidate answering HTTP 200 (for
the boto3 descriptor: the call succeeds and the body parses, its notion
of a successful first attempt). -/
def FirstCandidate200 (s : Settings) (net : Net) (boto : BotoNet) : Prop :=
  (s.aws_bearer_token_bedrock ≠ "" ∧
     ∃ t d, net s.aws_bearer_token_bedrock "us-west-2" HACKATHON_PROFILE_ID = .resp 200 t d)
  ∨ (s.aws_access_key_id ≠ "" ∧ s.aws_secret_access_key ≠ "" ∧
     ∃ d r, boto "us-west-2" HACKATHON_PROFILE_ARN = .ok d ∧ parseResponse d = .ok r)
  ∨ (s.aws_bedrock_api_key_backup ≠ "" ∧
     ∃ t d, net s.aws_bedrock_api_key_backup "us-west-2" MODEL_SONNET_46 = .resp 200 t d)

/-- Every HTTP call fails with some non-200 status (exhaustion setting:
no transport exceptions, no successes). -/
def NetAllFail (net : Net) : Prop :=
  ∀ tok region model, ∃ st tx d, net tok region model = .resp st tx d ∧ st ≠ 200

/-- Every boto3 call raises. -/
def BotoAllFail (boto : BotoNet) : Prop :=
  ∀ region model, ∃ m, boto region model = .exn m

end Bedrock

section Fixtures

open Bedrock MiniMax

/-- A well-formed text block. -/
def okBlock : Block := ⟨some "text", some "OK"⟩

/-- A well-formed 200 body: one text block, model and usage present. -/
def okData : RespData := ⟨[okBlock], some "claude-test", some ⟨some 12, some 3⟩, some "end_turn"⟩

/-- The parse of `okData`. -/
def okResult : InvocationResult := ⟨"OK", "claude-test", 12, 3, "end_turn"⟩

/-- A 200 body that omits the `model` field. -/
def noModelData : RespData := ⟨[okBlock], none, some ⟨some 7, some 2⟩, some "end_turn"⟩

/-- An error body placeholder (non-200 responses never parse it). -/
def errData : RespData := ⟨[], none, none, none⟩

/-- A 200 body whose only block is text-typed but has no text entry. -/
def badBlockData : RespData := ⟨[⟨some "text", none⟩], some "m", none, none⟩

/-- Two text blocks, for the content-normalization comparison. -/
def abBlocks : List Block := [⟨some "text", some "a"⟩, ⟨some "text", some "b"⟩]

/-- A boto3 oracle that always raises; never consulted in runs whose
settings leave the IAM keys empty. -/
def botoNone : BotoNet := fun _ _ => .exn "boto3 unavailable"

/-- Settings with every credential present. -/
def sAll : Settings := ⟨"bearer-tok", "AKIA", "SECRET", "", "absk-tok"⟩

/-- Settings with only the bearer token present. -/
def sBearerOnly : Settings := ⟨"bearer-tok", "", "", "", ""⟩

/-- Settings with only the ABSK key present. -/
def sAbskOnly : Settings := ⟨"", "", "", "", "absk-tok"⟩

/-- Settings with only the IAM session keys present. -/
def sIamOnly : Settings := ⟨"", "AKIA", "SECRET", "", ""⟩

/-- Oracle answering 200 with `okData` everywhere. -/
def netAll200 : Net := fun _ _ _ => .resp 200 "" okData

/-- Oracle for the C2 counterexample: the first candidate of the bearer chain
(the hackathon profile id) answers 401 with a plain `Unauthorized` body,
everything else answers 500. -/
def netC2 : Net := fun _ _ model =>
  if model = Bedrock.HACKATHON_PROFILE_ID then .resp 401 "Unauthorized" errData
  else .resp 500 "boom" errData

/-- Oracle for the transport-failure counterexample: the first ABSK
candidate (us-west-2, sonnet) raises a connect timeout, every other
call would answer 200. -/
def netC3 : Net := fun _ region model =>
  if region = "us-west-2" ∧ model = Bedrock.MODEL_SONNET_46 then
    .exn (.other "httpx.ConnectTimeout: timed out")
  else .resp 200 "" okData

/-- MiniMax oracle that always fails with a rate-limit error. -/
def mm429 : MMNet := fun _ => .exn "429 Too Many Requests"

/-- Oracle for the C8 counterexample: both sonnet candidates of the ABSK
chain answer 429, the haiku candidate answers 200 with a body that omits
the model field. -/
def netC8 : Net := fun _ _ model =>
  if model = Bedrock.MODEL_SONNET_46 then .resp 429 "throttled" errData
  else .resp 200 "" noModelData

/-- Boto3 oracle raising a generic 210-character exception string that
matches neither fast-fail trigger. -/
def botoLongMsg : String := String.mk (List.replicate 210 'x')

/-- Boto3 oracle for the C5 counterexample. -/
def botoC5 : BotoNet := fun _ _ => .exn botoLongMsg

/-- HTTP oracle that always answers a non-200 status. -/
def net404 : Net := fun _ _ _ => .resp 404 "model not found" errData

/-- MiniMax response carrying the two `abBlocks` text blocks. -/
def mmRespAB : MMResp := ⟨abBlocks, some 1, some 2, some "end_turn"⟩

/-- MiniMax oracle answering `mmRespAB` for every model. -/
def mmAB : MMNet := fun _ => .ok mmRespAB

/-- Four-message conversation of Scenario D whose system entry has empty
content. -/
def msgsD : List Message :=
  [⟨"system", ""⟩, ⟨"user", "a"⟩, ⟨"assistant", "b"⟩, ⟨"user", "c"⟩]

/-- Settings with the bearer token and the ABSK key present. -/
def sBearerAbsk : Settings := ⟨"bearer-tok", "", "", "", "absk-tok"⟩

/-- Oracle answering 403 AccessDenied on the hackathon profile id and
200 elsewhere. -/
def netC2b : Net := fun _ _ model =>
  if model = Bedrock.HACKATHON_PROFILE_ID then .resp 403 "AccessDenied" errData
  else .resp 200 "" okData

/-- Oracle for the Scenario B witness: 429 on the first ABSK candidate,
200 with a well-formed body elsewhere. -/
def netB : Net := fun _ region model =>
  if region = "us-west-2" ∧ model = Bedrock.MODEL_SONNET_46 then
    .resp 429 "Too many requests" errData
  else .resp 200 "" okData

/-- MiniMax oracle failing with a 404 on the first model and succeeding
on the second. -/
def mm404 : MiniMax.MMNet := fun model =>
  if model = "MiniMax-M2.5-highspeed" then .exn "404 model_not_found"
  else .ok mmRespAB

end Fixtures

/-! Helper lemmas about traces and the candidate chains. -/

namespace Bedrock

theorem allFailed_nil : allFailed [] := fun a ha => absurd ha (List.not_mem_nil a)

theorem allFailed_cons {a : Attempt} {tr : List Attempt} {e : Err}
    (ha : a.outcome = Except.error e) (h : allFailed tr) : allFailed (a :: tr) := by
  intro b hb
  rcases List.mem_cons.mp hb with rfl | hb
  · exact ⟨e, ha⟩
  · exact h b hb

theorem allFailed_single {a : Attempt} {e : Err} (ha : a.outcome = Except.error e) :
    allFailed [a] := allFailed_cons ha allFailed_nil

theorem allFailed_append {t1 t2 : List Attempt} (h1 : allFailed t1) (h2 : allFailed t2) :
    allFailed (t1 ++ t2) := by
  intro a ha
  rcases List.mem_append.mp ha with h | h
  · exact h1 a h
  · exact h2 a h

theorem endsWithSuccess_single {a : Attempt} {r : InvocationResult}
    (ha : a.outcome = Except.ok r) : endsWithSuccess [a] r :=
  ⟨[], a, rfl, ha, allFailed_nil⟩

theorem endsWithSuccess_cons {a : Attempt} {tr : List Attempt} {r : InvocationResult} {e : Err}
    (ha : a.outcome = Except.error e) (h : endsWithSuccess tr r) :
    endsWithSuccess (a :: tr) r := by
  obtain ⟨pre, b, rfl, hb, hpre⟩ := h
  exact ⟨a :: pre, b, rfl, hb, allFailed_cons ha hpre⟩

theorem endsWithSuccess_append {t1 t2 : List Attempt} {r : InvocationResult}
    (h1 : allFailed t1) (h2 : endsWithSuccess t2 r) :
    endsWithSuccess (t1 ++ t2) r := by
  obtain ⟨pre, b, rfl, hb, hpre⟩ := h2
  exact ⟨t1 ++ pre, b, by simp, hb, allFailed_append h1 hpre⟩

theorem bearerChainGo_shape (net : Net) (tok : String) (msgs : List Message)
    (sys : Option String) :
    ∀ (l : List (String × String)) (last : Err),
      (∀ r, (bearerChainGo net tok msgs sys l last).2 = .ok r →
        endsWithSuccess (bearerChainGo net tok msgs sys l last).1 r) ∧
      (∀ e, (bearerChainGo net tok msgs sys l last).2 = .error e →
        allFailed (bearerChainGo net tok msgs sys l last).1) := by
  intro l
  induction l with
  | nil =>
      intro last
      refine ⟨fun r h => ?_, fun e _ => ?_⟩
      · simp [bearerChainGo] at h
      · simpa [bearerChainGo] using allFailed_nil
  | cons c rest ih =>
      obtain ⟨region, model⟩ := c
      intro last
      rcases hh : httpInvoke net tok region model ("bearer_hackathon/" ++ region) with e0 | r0
      · rcases e0 with m | m | m
        · by_cases hs : bearerStop m = true
          · refine ⟨fun r h => ?_, fun e _ => ?_⟩
            · simp [bearerChainGo, hh, hs] at h
            · simp only [bearerChainGo, hh, hs, if_true]
              exact allFailed_single rfl
          · rcases hrec : bearerChainGo net tok msgs sys rest (.runtime m) with ⟨tr', res'⟩
            have ihm := ih (Err.runtime m)
            rw [hrec] at ihm
            refine ⟨fun r h => ?_, fun e h => ?_⟩
            · simp only [bearerChainGo, hh, hs, if_false, hrec, Bool.false_eq_true] at h ⊢
              exact endsWithSuccess_cons rfl (ihm.1 r h)
            · simp only [bearerChainGo, hh, hs, if_false, hrec, Bool.false_eq_true] at h ⊢
              exact allFailed_cons rfl (ihm.2 e h)
        · refine ⟨fun r h => ?_, fun e _ => ?_⟩
          · simp [bearerChainGo, hh] at h
          · simp only [bearerChainGo, hh]
            exact allFailed_single rfl
        · refine ⟨fun r h => ?_, fun e _ => ?_⟩
          · simp [bearerChainGo, hh] at h
          · simp only [bearerChainGo, hh]
            exact allFailed_single rfl
      · refine ⟨fun r h => ?_, fun e h => ?_⟩
        · simp only [bearerChainGo, hh] at h ⊢
          obtain rfl : r0 = r := by
            cases h
            rfl
          exact endsWithSuccess_single rfl
        · simp [bearerChainGo, hh] at h

theorem abskChainGo_shape (net : Net) (tok : String) (msgs : List Message)
    (sys : Option String) :
    ∀ (l : List (String × String)) (last : Err),
      (∀ r, (abskChainGo net tok msgs sys l last).2 = .ok r →
        endsWithSuccess (abskChainGo net tok msgs sys l last).1 r) ∧
      (∀ e, (abskChainGo net tok msgs sys l last).2 = .error e →
        allFailed (abskChainGo net tok msgs sys l last).1) := by
  intro l
  induction l with
  | nil =>
      intro last
      refine ⟨fun r h => ?_, fun e _ => ?_⟩
      · simp [abskChainGo] at h
      · simpa [abskChainGo] using allFailed_nil
  | cons c rest ih =>
      obtain ⟨region, model⟩ := c
      intro last
      rcases hh : httpInvoke net tok region model ("absk_personal/" ++ region) with e0 | r0
      · rcases e0 with m | m | m
        · by_cases hs : abskStop m = true
          · refine ⟨fun r h => ?_, fun e _ => ?_⟩
            · simp [abskChainGo, hh, hs] at h
            · simp only [abskChainGo, hh, hs, if_true]
              exact allFailed_single rfl
          · rcases hrec : abskChainGo net tok msgs sys rest (.runtime m) with ⟨tr', res'⟩
            have ihm := ih (Err.runtime m)
            rw [hrec] at ihm
            refine ⟨fun r h => ?_, fun e h => ?_⟩
            · simp only [abskChainGo, hh, hs, if_false, hrec, Bool.false_eq_true] at h ⊢
              exact endsWithSuccess_cons rfl (ihm.1 r h)
            · simp only [abskChainGo, hh, hs, if_false, hrec, Bool.false_eq_true] at h ⊢
              exact allFailed_cons rfl (ihm.2 e h)
        · refine ⟨fun r h => ?_, fun e _ => ?_⟩
          · simp [abskChainGo, hh] at h
          · simp only [abskChainGo, hh]
            exact allFailed_single rfl
        · refine ⟨fun r h => ?_, fun e _ => ?_⟩
          · simp [abskChainGo, hh] at h
          · simp only [abskChainGo, hh]
            exact allFailed_single rfl
      · refine ⟨fun r h => ?_, fun e h => ?_⟩
        · simp only [abskChainGo, hh] at h ⊢
          obtain rfl : r0 = r := by
            cases h
            rfl
          exact endsWithSuccess_single rfl
        · simp [abskChainGo, hh] at h

theorem botoChainGo_shape (boto : BotoNet) (msgs : List Message) (sys : Option String) :
    ∀ (l : List (String × String)) (last : Err),
      (∀ r, (botoChainGo boto msgs sys l last).2 = .ok r →
        endsWithSuccess (botoChainGo boto msgs sys l last).1 r) ∧
      (∀ e, (botoChainGo boto msgs sys l last).2 = .error e →
        allFailed (botoChainGo boto msgs sys l last).1) := by
  intro l
  induction l with
  | nil =>
      intro last
      refine ⟨fun r h => ?_, fun e _ => ?_⟩
      · simp [botoChainGo] at h
      · simpa [botoChainGo] using allFailed_nil
  | cons c rest ih =>
      obtain ⟨region, model⟩ := c
      intro last
      rcases hb : boto region model with data | m
      · rcases hp : parseResponse data with e1 | r1
        · by_cases hs : botoFastFail e1.toMessage = true
          · refine ⟨fun r h => ?_, fun e _ => ?_⟩
            · simp [botoChainGo, hb, hp, hs] at h
            · simp only [botoChainGo, hb, hp, hs, if_true]
              exact allFailed_single rfl
          · rcases hrec : botoChainGo boto msgs sys rest e1 with ⟨tr', res'⟩
            have ihm := ih e1
            rw [hrec] at ihm
            refine ⟨fun r h => ?_, fun e h => ?_⟩
            · simp only [botoChainGo, hb, hp, hs, if_false, hrec, Bool.false_eq_true] at h ⊢
              exact endsWithSuccess_cons rfl (ihm.1 r h)
            · simp only [botoChainGo, hb, hp, hs, if_false, hrec, Bool.false_eq_true] at h ⊢
              exact allFailed_cons rfl (ihm.2 e h)
        · refine ⟨fun r h => ?_, fun e h => ?_⟩
          · simp only [botoChainGo, hb, hp] at h ⊢
            obtain rfl : r1 = r := by
              cases h
              rfl
            exact endsWithSuccess_single rfl
          · simp [botoChainGo, hb, hp] at h
      · by_cases hs : botoFastFail m = true
        · refine ⟨fun r h => ?_, fun e _ => ?_⟩
          · simp [botoChainGo, hb, hs] at h
          · simp only [botoChainGo, hb, hs, if_true]
            exact allFailed_single rfl
        · rcases hrec : botoChainGo boto msgs sys rest (.other m) with ⟨tr', res'⟩
          have ihm := ih (Err.other m)
          rw [hrec] at ihm
          refine ⟨fun r h => ?_, fun e h => ?_⟩
          · simp only [botoChainGo, hb, hs, if_false, hrec, Bool.false_eq_true] at h ⊢
            exact endsWithSuccess_cons rfl (ihm.1 r h)
          · simp only [botoChainGo, hb, hs, if_false, hrec, Bool.false_eq_true] at h ⊢
            exact allFailed_cons rfl (ihm.2 e h)

theorem bearerChainGo_tags (net : Net) (tok : String) (msgs : List Message)
    (sys : Option String) :
    ∀ (l : List (String × String)) (last : Err),
      ∀ a ∈ (bearerChainGo net tok msgs sys l last).1,
        a.method = Cred.bearer ∧ a.body = build_body msgs sys := by
  intro l
  induction l with
  | nil =>
      intro last a ha
      simp [bearerChainGo] at ha
  | cons c rest ih =>
      obtain ⟨region, model⟩ := c
      intro last a ha
      rcases hh : httpInvoke net tok region model ("bearer_hackathon/" ++ region) with e0 | r0
      · rcases e0 with m | m | m
        · by_cases hs : bearerStop m = true
          · simp only [bearerChainGo, hh, hs, if_true] at ha
            rcases List.mem_singleton.mp ha with rfl
            exact ⟨rfl, rfl⟩
          · rcases hrec : bearerChainGo net tok msgs sys rest (.runtime m) with ⟨tr', res'⟩
            simp only [bearerChainGo, hh, hs, if_false, hrec, Bool.false_eq_true] at ha
            rcases List.mem_cons.mp ha with rfl | hmem
            · exact ⟨rfl, rfl⟩
            · have := ih (Err.runtime m) a
              rw [hrec] at this
              exact this hmem
        · simp only [bearerChainGo, hh] at ha
          rcases List.mem_singleton.mp ha with rfl
          exact ⟨rfl, rfl⟩
        · simp only [bearerChainGo, hh] at ha
          rcases List.mem_singleton.mp ha with rfl
          exact ⟨rfl, rfl⟩
      · simp only [bearerChainGo, hh] at ha
        rcases List.mem_singleton.mp ha with rfl
        exact ⟨rfl, rfl⟩

theorem abskChainGo_tags (net : Net) (tok : String) (msgs : List Message)
    (sys : Option String) :
    ∀ (l : List (String × String)) (last : Err),
      ∀ a ∈ (abskChainGo net tok msgs sys l last).1,
        a.method = Cred.absk ∧ a.body = build_body msgs sys := by
  intro l
  induction l with
  | nil =>
      intro last a ha
      simp [abskChainGo] at ha
  | cons c rest ih =>
      obtain ⟨region, model⟩ := c
      intro last a ha
      rcases hh : httpInvoke net tok region model ("absk_personal/" ++ region) with e0 | r0
      · rcases e0 with m | m | m
        · by_cases hs : abskStop m = true
          · simp only [abskChainGo, hh, hs, if_true] at ha
            rcases List.mem_singleton.mp ha with rfl
            exact ⟨rfl, rfl⟩
          · rcases hrec : abskChainGo net tok msgs sys rest (.runtime m) with ⟨tr', res'⟩
            simp only [abskChainGo, hh, hs, if_false, hrec, Bool.false_eq_true] at ha
            rcases List.mem_cons.mp ha with rfl | hmem
            · exact ⟨rfl, rfl⟩
            · have := ih (Err.runtime m) a
              rw [hrec] at this
              exact this hmem
        · simp only [abskChainGo, hh] at ha
          rcases List.mem_singleton.mp ha with rfl
          exact ⟨rfl, rfl⟩
        · simp only [abskChainGo, hh] at ha
          rcases List.mem_singleton.mp ha with rfl
          exact ⟨rfl, rfl⟩
      · simp only [abskChainGo, hh] at ha
        rcases List.mem_singleton.mp ha with rfl
        exact ⟨rfl, rfl⟩

theorem botoChainGo_tags (boto : BotoNet) (msgs : List Message) (sys : Option String) :
    ∀ (l : List (String × String)) (last : Err),
      ∀ a ∈ (botoChainGo boto msgs sys l last).1,
        a.method = Cred.boto3 ∧ a.body = build_body msgs sys := by
  intro l
  induction l with
  | nil =>
      intro last a ha
      simp [botoChainGo] at ha
  | cons c rest ih =>
      obtain ⟨region, model⟩ := c
      intro last a ha
      rcases hb : boto region model with data | m
      · rcases hp : parseResponse data with e1 | r1
        · by_cases hs : botoFastFail e1.toMessage = true
          · simp only [botoChainGo, hb, hp, hs, if_true] at ha
            rcases List.mem_singleton.mp ha with rfl
            exact ⟨rfl, rfl⟩
          · rcases hrec : botoChainGo boto msgs sys rest e1 with ⟨tr', res'⟩
            simp only [botoChainGo, hb, hp, hs, if_false, hrec, Bool.false_eq_true] at ha
            rcases List.mem_cons.mp ha with rfl | hmem
            · exact ⟨rfl, rfl⟩
            · have := ih e1 a
              rw [hrec] at this
              exact this hmem
        · simp only [botoChainGo, hb, hp] at ha
          rcases List.mem_singleton.mp ha with rfl
          exact ⟨rfl, rfl⟩
      · by_cases hs : botoFastFail m = true
        · simp only [botoChainGo, hb, hs, if_true] at ha
          rcases List.mem_singleton.mp ha with rfl
          exact ⟨rfl, rfl⟩
        · rcases hrec : botoChainGo boto msgs sys rest (.other m) with ⟨tr', res'⟩
          simp only [botoChainGo, hb, hs, if_false, hrec, Bool.false_eq_true] at ha
          rcases List.mem_cons.mp ha with rfl | hmem
          · exact ⟨rfl, rfl⟩
          · have := ih (Err.other m) a
            rw [hrec] at this
            exact this hmem

theorem bearerChainGo_first_ok {net : Net} {tok region model : String}
    {msgs : List Message} {sys : Option String} {r : InvocationResult}
    (h : httpInvoke net tok region model ("bearer_hackathon/" ++ region) = .ok r)
    (rest : List (String × String)) (last : Err) :
    bearerChainGo net tok msgs sys ((region, model) :: rest) last =
      ([⟨Cred.bearer, region, model, build_body msgs sys, .ok r⟩], .ok r) := by
  simp [bearerChainGo, h]

theorem abskChainGo_first_ok {net : Net} {tok region model : String}
    {msgs : List Message} {sys : Option String} {r : InvocationResult}
    (h : httpInvoke net tok region model ("absk_personal/" ++ region) = .ok r)
    (rest : List (String × String)) (last : Err) :
    abskChainGo net tok msgs sys ((region, model) :: rest) last =
      ([⟨Cred.absk, region, model, build_body msgs sys, .ok r⟩], .ok r) := by
  simp [abskChainGo, h]

theorem botoChainGo_first_ok {boto : BotoNet} {region model : String}
    {msgs : List Message} {sys : Option String} {data : RespData} {r : InvocationResult}
    (hb : boto region model = .ok data) (hp : parseResponse data = .ok r)
    (rest : List (String × String)) (last : Err) :
    botoChainGo boto msgs sys ((region, model) :: rest) last =
      ([⟨Cred.boto3, region, model, build_body msgs sys, .ok r⟩], .ok r) := by
  simp [botoChainGo, hb, hp]

theorem bearerChainGo_stop {net : Net} {tok region model : String}
    {msgs : List Message} {sys : Option String} {m : String}
    (h : httpInvoke net tok region model ("bearer_hackathon/" ++ region) =
      .error (.runtime m))
    (hs : bearerStop m = true) (rest : List (String × String)) (last : Err) :
    bearerChainGo net tok msgs sys ((region, model) :: rest) last =
      ([⟨Cred.bearer, region, model, build_body msgs sys, .error (.runtime m)⟩],
       .error (.runtime m)) := by
  simp [bearerChainGo, h, hs]

theorem abskChainGo_stop {net : Net} {tok region model : String}
    {msgs : List Message} {sys : Option String} {m : String}
    (h : httpInvoke net tok region model ("absk_personal/" ++ region) =
      .error (.runtime m))
    (hs : abskStop m = true) (rest : List (String × String)) (last : Err) :
    abskChainGo net tok msgs sys ((region, model) :: rest) last =
      ([⟨Cred.absk, region, model, build_body msgs sys, .error (.runtime m)⟩],
       .error (.runtime m)) := by
  simp [abskChainGo, h, hs]

theorem bearerChainGo_continue {net : Net} {tok region model : String}
    {msgs : List Message} {sys : Option String} {m : String}
    (h : httpInvoke net tok region model ("bearer_hackathon/" ++ region) =
      .error (.runtime m))
    (hs : bearerStop m = false) (rest : List (String × String)) (last : Err) :
    bearerChainGo net tok msgs sys ((region, model) :: rest) last =
      (⟨Cred.bearer, region, model, build_body msgs sys, .error (.runtime m)⟩ ::
        (bearerChainGo net tok msgs sys rest (.runtime m)).1,
       (bearerChainGo net tok msgs sys rest (.runtime m)).2) := by
  rcases hrec : bearerChainGo net tok msgs sys rest (.runtime m) with ⟨tr', res'⟩
  simp [bearerChainGo, h, hs, hrec]

theorem abskChainGo_continue {net : Net} {tok region model : String}
    {msgs : List Message} {sys : Option String} {m : String}
    (h : httpInvoke net tok region model ("absk_personal/" ++ region) =
      .error (.runtime m))
    (hs : abskStop m = false) (rest : List (String × String)) (last : Err) :
    abskChainGo net tok msgs sys ((region, model) :: rest) last =
      (⟨Cred.absk, region, model, build_body msgs sys, .error (.runtime m)⟩ ::
        (abskChainGo net tok msgs sys rest (.runtime m)).1,
       (abskChainGo net tok msgs sys rest (.runtime m)).2) := by
  rcases hrec : abskChainGo net tok msgs sys rest (.runtime m) with ⟨tr', res'⟩
  simp [abskChainGo, h, hs, hrec]

theorem httpInvoke_benign {net : Net} (hb : NetBenign net)
    (tok region model label : String) :
    (∃ r, httpInvoke net tok region model label = .ok r) ∨
    (∃ m, httpInvoke net tok region model label = .error (.runtime m)) := by
  rcases hn : net tok region model with ⟨st, tx, d⟩ | e
  · by_cases h200 : st = 200
    · subst h200
      obtain ⟨r, hr⟩ := (hb tok region model).2 tx d hn
      exact Or.inl ⟨r, by simp [httpInvoke, hn, hr]⟩
    · exact Or.inr ⟨httpFailMsg st label tx, by simp [httpInvoke, hn, h200]⟩
  · exact absurd hn ((hb tok region model).1 e)

theorem bearerChainGo_benign {net : Net} (hb : NetBenign net)
    (tok : String) (msgs : List Message) (sys : Option String) :
    ∀ (l : List (String × String)) (m0 : String),
      (∃ r, (bearerChainGo net tok msgs sys l (.runtime m0)).2 = .ok r) ∨
      (∃ m, (bearerChainGo net tok msgs sys l (.runtime m0)).2 = .error (.runtime m)) := by
  intro l
  induction l with
  | nil =>
      intro m0
      exact Or.inr ⟨m0, by simp [bearerChainGo]⟩
  | cons c rest ih =>
      obtain ⟨region, model⟩ := c
      intro m0
      rcases httpInvoke_benign hb tok region model ("bearer_hackathon/" ++ region) with
        ⟨r, hr⟩ | ⟨m, hm⟩
      · exact Or.inl ⟨r, by rw [bearerChainGo_first_ok hr]⟩
      · by_cases hs : bearerStop m = true
        · exact Or.inr ⟨m, by rw [bearerChainGo_stop hm hs]⟩
        · rw [bearerChainGo_continue hm (by simpa using hs)]
          exact ih m

theorem abskChainGo_benign {net : Net} (hb : NetBenign net)
    (tok : String) (msgs : List Message) (sys : Option String) :
    ∀ (l : List (String × String)) (m0 : String),
      (∃ r, (abskChainGo net tok msgs sys l (.runtime m0)).2 = .ok r) ∨
      (∃ m, (abskChainGo net tok msgs sys l (.runtime m0)).2 = .error (.runtime m)) := by
  intro l
  induction l with
  | nil =>
      intro m0
      exact Or.inr ⟨m0, by simp [abskChainGo]⟩
  | cons c rest ih =>
      obtain ⟨region, model⟩ := c
      intro m0
      rcases httpInvoke_benign hb tok region model ("absk_personal/" ++ region) with
        ⟨r, hr⟩ | ⟨m, hm⟩
      · exact Or.inl ⟨r, by rw [abskChainGo_first_ok hr]⟩
      · by_cases hs : abskStop m = true
        · exact Or.inr ⟨m, by rw [abskChainGo_stop hm hs]⟩
        · rw [abskChainGo_continue hm (by simpa using hs)]
          exact ih m

theorem runKey1_spec (s : Settings) (net : Net) (msgs : List Message) (sys : Option String) :
    (runKey1 s net msgs sys = ([], .skipped) ∧ s.aws_bearer_token_bedrock = "") ∨
    (∃ tr r, bearerChain net s.aws_bearer_token_bedrock msgs sys = (tr, .ok r) ∧
      runKey1 s net msgs sys = (tr, .success r) ∧ s.aws_bearer_token_bedrock ≠ "") ∨
    (∃ tr m, bearerChain net s.aws_bearer_token_bedrock msgs sys = (tr, .error (.runtime m)) ∧
      runKey1 s net msgs sys = (tr, .captured ("bearer: " ++ m)) ∧
      s.aws_bearer_token_bedrock ≠ "") ∨
    (∃ tr e, bearerChain net s.aws_bearer_token_bedrock msgs sys = (tr, .error e) ∧
      (∀ m, e ≠ .runtime m) ∧ runKey1 s net msgs sys = (tr, .fatal e) ∧
      s.aws_bearer_token_bedrock ≠ "") := by
  by_cases hp : s.aws_bearer_token_bedrock ≠ ""
  · rcases hch : bearerChain net s.aws_bearer_token_bedrock msgs sys with ⟨tr, res⟩
    rcases res with e | r
    · rcases e with m | m | m
      · exact Or.inr (Or.inr (Or.inl ⟨tr, m, rfl, by simp [runKey1, hp, hch], hp⟩))
      · exact Or.inr (Or.inr (Or.inr ⟨tr, .keyError m, rfl, by simp,
          by simp [runKey1, hp, hch], hp⟩))
      · exact Or.inr (Or.inr (Or.inr ⟨tr, .other m, rfl, by simp,
          by simp [runKey1, hp, hch], hp⟩))
    · exact Or.inr (Or.inl ⟨tr, r, rfl, by simp [runKey1, hp, hch], hp⟩)
  · have hp0 : s.aws_bearer_token_bedrock = "" := by simpa using hp
    exact Or.inl ⟨by simp [runKey1, hp0], hp0⟩

theorem runKey3_spec (s : Settings) (net : Net) (msgs : List Message) (sys : Option String) :
    (runKey3 s net msgs sys = ([], .skipped) ∧ s.aws_bedrock_api_key_backup = "") ∨
    (∃ tr r, abskChain net s.aws_bedrock_api_key_backup msgs sys = (tr, .ok r) ∧
      runKey3 s net msgs sys = (tr, .success r) ∧ s.aws_bedrock_api_key_backup ≠ "") ∨
    (∃ tr m, abskChain net s.aws_bedrock_api_key_backup msgs sys = (tr, .error (.runtime m)) ∧
      runKey3 s net msgs sys = (tr, .captured ("absk: " ++ m)) ∧
      s.aws_bedrock_api_key_backup ≠ "") ∨
    (∃ tr e, abskChain net s.aws_bedrock_api_key_backup msgs sys = (tr, .error e) ∧
      (∀ m, e ≠ .runtime m) ∧ runKey3 s net msgs sys = (tr, .fatal e) ∧
      s.aws_bedrock_api_key_backup ≠ "") := by
  by_cases hp : s.aws_bedrock_api_key_backup ≠ ""
  · rcases hch : abskChain net s.aws_bedrock_api_key_backup msgs sys with ⟨tr, res⟩
    rcases res with e | r
    · rcases e with m | m | m
      · exact Or.inr (Or.inr (Or.inl ⟨tr, m, rfl, by simp [runKey3, hp, hch], hp⟩))
      · exact Or.inr (Or.inr (Or.inr ⟨tr, .keyError m, rfl, by simp,
          by simp [runKey3, hp, hch], hp⟩))
      · exact Or.inr (Or.inr (Or.inr ⟨tr, .other m, rfl, by simp,
          by simp [runKey3, hp, hch], hp⟩))
    · exact Or.inr (Or.inl ⟨tr, r, rfl, by simp [runKey3, hp, hch], hp⟩)
  · have hp0 : s.aws_bedrock_api_key_backup = "" := by simpa using hp
    exact Or.inl ⟨by simp [runKey3, hp0], hp0⟩

theorem runKey2_spec (s : Settings) (boto : BotoNet) (msgs : List Message)
    (sys : Option String) :
    (runKey2 s boto msgs sys = ([], .skipped) ∧
      ¬(s.aws_access_key_id ≠ "" ∧ s.aws_secret_access_key ≠ "")) ∨
    (∃ tr r, botoChain boto msgs sys = (tr, .ok r) ∧
      runKey2 s boto msgs sys = (tr, .success r) ∧
      s.aws_access_key_id ≠ "" ∧ s.aws_secret_access_key ≠ "") ∨
    (∃ tr e, botoChain boto msgs sys = (tr, .error e) ∧
      runKey2 s boto msgs sys = (tr, .captured ("boto3_event: " ++ e.toMessage)) ∧
      s.aws_access_key_id ≠ "" ∧ s.aws_secret_access_key ≠ "") := by
  by_cases hp : s.aws_access_key_id ≠ "" ∧ s.aws_secret_access_key ≠ ""
  · rcases hch : botoChain boto msgs sys with ⟨tr, res⟩
    rcases res with e | r
    · exact Or.inr (Or.inr ⟨tr, e, rfl, by simp [runKey2, hp, hch], hp⟩)
    · exact Or.inr (Or.inl ⟨tr, r, rfl, by simp [runKey2, hp, hch], hp⟩)
  · exact Or.inl ⟨by simp [runKey2, hp], hp⟩

theorem bearerChain_shape (net : Net) (tok : String) (msgs : List Message)
    (sys : Option String) :
    (∀ r, (bearerChain net tok msgs sys).2 = .ok r →
      endsWithSuccess (bearerChain net tok msgs sys).1 r) ∧
    (∀ e, (bearerChain net tok msgs sys).2 = .error e →
      allFailed (bearerChain net tok msgs sys).1) :=
  bearerChainGo_shape net tok msgs sys BEARER_FALLBACK_CHAIN (.runtime "empty bearer chain")

theorem abskChain_shape (net : Net) (tok : String) (msgs : List Message)
    (sys : Option String) :
    (∀ r, (abskChain net tok msgs sys).2 = .ok r →
      endsWithSuccess (abskChain net tok msgs sys).1 r) ∧
    (∀ e, (abskChain net tok msgs sys).2 = .error e →
      allFailed (abskChain net tok msgs sys).1) :=
  abskChainGo_shape net tok msgs sys ABSK_FALLBACK_CHAIN (.runtime "empty ABSK chain")

theorem botoChain_shape (boto : BotoNet) (msgs : List Message) (sys : Option String) :
    (∀ r, (botoChain boto msgs sys).2 = .ok r →
      endsWithSuccess (botoChain boto msgs sys).1 r) ∧
    (∀ e, (botoChain boto msgs sys).2 = .error e →
      allFailed (botoChain boto msgs sys).1) :=
  botoChainGo_shape boto msgs sys botoAttempts (.runtime "boto3 hackathon: empty chain")

theorem runKey23_ok_shape {s : Settings} {net : Net} {boto : BotoNet}
    {msgs : List Message} {sys : Option String} {errs : List String} {r : InvocationResult}
    (h : (runKey23 s net boto msgs sys errs).2.2 = .ok r) :
    endsWithSuccess (runKey23 s net boto msgs sys errs).1 r := by
  rcases runKey2_spec s boto msgs sys with ⟨hk2, _⟩ | ⟨tr2, r2, hch2, hk2, _⟩ |
    ⟨tr2, e2, hch2, hk2, _⟩
  · rcases runKey3_spec s net msgs sys with ⟨hk3, _⟩ | ⟨tr3, r3, hch3, hk3, _⟩ |
      ⟨tr3, m3, hch3, hk3, _⟩ | ⟨tr3, e3, hch3, hne3, hk3, _⟩
    · simp [runKey23, hk2, hk3] at h
    · simp only [runKey23, hk2, hk3] at h ⊢
      have hr : r3 = r := by
        cases h
        rfl
      have hshape := (abskChain_shape net s.aws_bedrock_api_key_backup msgs sys).1 r3
      rw [hch3] at hshape
      have hend := hshape rfl
      rw [hr] at hend
      simpa using hend
    · simp [runKey23, hk2, hk3] at h
    · simp [runKey23, hk2, hk3] at h
  · simp only [runKey23, hk2] at h ⊢
    have hr : r2 = r := by
      cases h
      rfl
    have hshape := (botoChain_shape boto msgs sys).1 r2
    rw [hch2] at hshape
    have hend := hshape rfl
    rw [hr] at hend
    exact hend
  · have htr2 : allFailed tr2 := by
      have := (botoChain_shape boto msgs sys).2 e2
      rw [hch2] at this
      exact this rfl
    rcases runKey3_spec s net msgs sys with ⟨hk3, _⟩ | ⟨tr3, r3, hch3, hk3, _⟩ |
      ⟨tr3, m3, hch3, hk3, _⟩ | ⟨tr3, e3, hch3, hne3, hk3, _⟩
    · simp [runKey23, hk2, hk3] at h
    · simp only [runKey23, hk2, hk3] at h ⊢
      have hr : r3 = r := by
        cases h
        rfl
      have hshape := (abskChain_shape net s.aws_bedrock_api_key_backup msgs sys).1 r3
      rw [hch3] at hshape
      have hend := hshape rfl
      rw [hr] at hend
      exact endsWithSuccess_append htr2 hend
    · simp [runKey23, hk2, hk3] at h
    · simp [runKey23, hk2, hk3] at h

theorem invokeRun_ok_shape {s : Settings} {net : Net} {boto : BotoNet}
    {msgs : List Message} {sys : Option String} {r : InvocationResult}
    (h : (invokeRun s net boto msgs sys).2.2 = .ok r) :
    endsWithSuccess (invokeRun s net boto msgs sys).1 r := by
  rcases runKey1_spec s net msgs sys with ⟨hk1, _⟩ | ⟨tr1, r1, hch1, hk1, _⟩ |
    ⟨tr1, m1, hch1, hk1, _⟩ | ⟨tr1, e1, hch1, hne1, hk1, _⟩
  · simp only [invokeRun, hk1] at h ⊢
    exact runKey23_ok_shape h
  · simp only [invokeRun, hk1] at h ⊢
    have hr : r1 = r := by
      cases h
      rfl
    have hshape := (bearerChain_shape net s.aws_bearer_token_bedrock msgs sys).1 r1
    rw [hch1] at hshape
    have hend := hshape rfl
    rw [hr] at hend
    exact hend
  · have htr1 : allFailed tr1 := by
      have := (bearerChain_shape net s.aws_bearer_token_bedrock msgs sys).2 (.runtime m1)
      rw [hch1] at this
      exact this rfl
    simp only [invokeRun, hk1] at h ⊢
    exact endsWithSuccess_append htr1 (runKey23_ok_shape h)
  · rcases e1 with m | m | m
    · exact absurd rfl (hne1 m)
    · simp [invokeRun, hk1] at h
    · simp [invokeRun, hk1] at h

theorem bearerChain_tags {net : Net} {tok : String} {msgs : List Message}
    {sys : Option String} :
    ∀ a ∈ (bearerChain net tok msgs sys).1,
      a.method = Cred.bearer ∧ a.body = build_body msgs sys :=
  bearerChainGo_tags net tok msgs sys BEARER_FALLBACK_CHAIN (.runtime "empty bearer chain")

theorem abskChain_tags {net : Net} {tok : String} {msgs : List Message}
    {sys : Option String} :
    ∀ a ∈ (abskChain net tok msgs sys).1,
      a.method = Cred.absk ∧ a.body = build_body msgs sys :=
  abskChainGo_tags net tok msgs sys ABSK_FALLBACK_CHAIN (.runtime "empty ABSK chain")

theorem botoChain_tags {boto : BotoNet} {msgs : List Message} {sys : Option String} :
    ∀ a ∈ (botoChain boto msgs sys).1,
      a.method = Cred.boto3 ∧ a.body = build_body msgs sys :=
  botoChainGo_tags boto msgs sys botoAttempts (.runtime "boto3 hackathon: empty chain")

theorem runKey1_trace {s : Settings} {net : Net} {msgs : List Message} {sys : Option String} :
    ∀ a ∈ (runKey1 s net msgs sys).1,
      a.method = Cred.bearer ∧ a.body = build_body msgs sys ∧
        s.aws_bearer_token_bedrock ≠ "" := by
  intro a ha
  rcases runKey1_spec s net msgs sys with ⟨hk1, _⟩ | ⟨tr1, r1, hch1, hk1, hp⟩ |
    ⟨tr1, m1, hch1, hk1, hp⟩ | ⟨tr1, e1, hch1, hne1, hk1, hp⟩
  · rw [hk1] at ha
    simp at ha
  all_goals
    rw [hk1] at ha
    have htag := bearerChain_tags a (by rw [hch1]; exact ha)
    exact ⟨htag.1, htag.2, hp⟩

theorem runKey2_trace {s : Settings} {boto : BotoNet} {msgs : List Message}
    {sys : Option String} :
    ∀ a ∈ (runKey2 s boto msgs sys).1,
      a.method = Cred.boto3 ∧ a.body = build_body msgs sys ∧
        s.aws_access_key_id ≠ "" ∧ s.aws_secret_access_key ≠ "" := by
  intro a ha
  rcases runKey2_spec s boto msgs sys with ⟨hk2, _⟩ | ⟨tr2, r2, hch2, hk2, hp⟩ |
    ⟨tr2, e2, hch2, hk2, hp⟩
  · rw [hk2] at ha
    simp at ha
  all_goals
    rw [hk2] at ha
    have htag := botoChain_tags a (by rw [hch2]; exact ha)
    exact ⟨htag.1, htag.2, hp⟩

theorem runKey3_trace {s : Settings} {net : Net} {msgs : List Message} {sys : Option String} :
    ∀ a ∈ (runKey3 s net msgs sys).1,
      a.method = Cred.absk ∧ a.body = build_body msgs sys ∧
        s.aws_bedrock_api_key_backup ≠ "" := by
  intro a ha
  rcases runKey3_spec s net msgs sys with ⟨hk3, _⟩ | ⟨tr3, r3, hch3, hk3, hp⟩ |
    ⟨tr3, m3, hch3, hk3, hp⟩ | ⟨tr3, e3, hch3, hne3, hk3, hp⟩
  · rw [hk3] at ha
    simp at ha
  all_goals
    rw [hk3] at ha
    have htag := abskChain_tags a (by rw [hch3]; exact ha)
    exact ⟨htag.1, htag.2, hp⟩

theorem runKey23_trace {s : Settings} {net : Net} {boto : BotoNet}
    {msgs : List Message} {sys : Option String} {errs : List String} :
    ∀ a ∈ (runKey23 s net boto msgs sys errs).1,
      a ∈ (runKey2 s boto msgs sys).1 ∨ a ∈ (runKey3 s net msgs sys).1 := by
  intro a ha
  rcases hk2 : runKey2 s boto msgs sys with ⟨t2, st2⟩
  rcases hk3 : runKey3 s net msgs sys with ⟨t3, st3⟩
  rcases st2 with r2 | en2 | e2 | _ <;> rcases st3 with r3 | en3 | e3 | _ <;>
    simp only [runKey23, hk2, hk3] at ha <;>
    simp only [hk2, hk3] <;>
    first
      | exact Or.inl ha
      | (rcases List.mem_append.mp ha with hmem | hmem
         · exact Or.inl hmem
         · exact Or.inr hmem)

theorem invokeRun_trace {s : Settings} {net : Net} {boto : BotoNet}
    {msgs : List Message} {sys : Option String} :
    ∀ a ∈ (invokeRun s net boto msgs sys).1,
      a ∈ (runKey1 s net msgs sys).1 ∨
        a ∈ (runKey2 s boto msgs sys).1 ∨ a ∈ (runKey3 s net msgs sys).1 := by
  intro a ha
  rcases hk1 : runKey1 s net msgs sys with ⟨t1, st1⟩
  rcases st1 with r1 | en1 | e1 | _ <;>
    simp only [invokeRun, hk1] at ha
  · exact Or.inl ha
  · rcases List.mem_append.mp ha with hmem | hmem
    · exact Or.inl hmem
    · exact Or.inr (runKey23_trace a hmem)
  · exact Or.inl ha
  · rcases List.mem_append.mp ha with hmem | hmem
    · exact Or.inl hmem
    · exact Or.inr (runKey23_trace a hmem)

theorem invokeRun_trace_tags {s : Settings} {net : Net} {boto : BotoNet}
    {msgs : List Message} {sys : Option String} :
    ∀ a ∈ (invokeRun s net boto msgs sys).1,
      a.body = build_body msgs sys ∧
        ((a.method = Cred.bearer ∧ s.aws_bearer_token_bedrock ≠ "") ∨
         (a.method = Cred.boto3 ∧ s.aws_access_key_id ≠ "" ∧
            s.aws_secret_access_key ≠ "") ∨
         (a.method = Cred.absk ∧ s.aws_bedrock_api_key_backup ≠ "")) := by
  intro a ha
  rcases invokeRun_trace a ha with h | h | h
  · have := runKey1_trace a h
    exact ⟨this.2.1, Or.inl ⟨this.1, this.2.2⟩⟩
  · have := runKey2_trace a h
    exact ⟨this.2.1, Or.inr (Or.inl ⟨this.1, this.2.2⟩)⟩
  · have := runKey3_trace a h
    exact ⟨this.2.1, Or.inr (Or.inr ⟨this.1, this.2.2⟩)⟩

theorem runKey23_errors {s : Settings} {net : Net} {boto : BotoNet}
    {msgs : List Message} {sys : Option String} {errs : List String} :
    ∀ e ∈ (runKey23 s net boto msgs sys errs).2.1,
      e ∈ errs ∨
      (∃ m, e = "boto3_event: " ++ m ∧
        s.aws_access_key_id ≠ "" ∧ s.aws_secret_access_key ≠ "") ∨
      (∃ m, e = "absk: " ++ m ∧ s.aws_bedrock_api_key_backup ≠ "") := by
  intro e he
  rcases runKey2_spec s boto msgs sys with ⟨hk2, _⟩ | ⟨tr2, r2, hch2, hk2, hp2⟩ |
    ⟨tr2, e2, hch2, hk2, hp2⟩
  · rcases runKey3_spec s net msgs sys with ⟨hk3, _⟩ | ⟨tr3, r3, hch3, hk3, hp3⟩ |
      ⟨tr3, m3, hch3, hk3, hp3⟩ | ⟨tr3, e3, hch3, hne3, hk3, hp3⟩
    · simp only [runKey23, hk2, hk3, stepErrors] at he
      simp at he
      exact Or.inl he
    · simp only [runKey23, hk2, hk3, stepErrors] at he
      simp at he
      exact Or.inl he
    · simp only [runKey23, hk2, hk3, stepErrors] at he
      simp at he
      rcases he with hmem | hmem
      · exact Or.inl hmem
      · exact Or.inr (Or.inr ⟨m3, hmem, hp3⟩)
    · simp only [runKey23, hk2, hk3, stepErrors] at he
      simp at he
      exact Or.inl he
  · simp only [runKey23, hk2] at he
    exact Or.inl he
  · rcases runKey3_spec s net msgs sys with ⟨hk3, _⟩ | ⟨tr3, r3, hch3, hk3, hp3⟩ |
      ⟨tr3, m3, hch3, hk3, hp3⟩ | ⟨tr3, e3, hch3, hne3, hk3, hp3⟩
    · simp only [runKey23, hk2, hk3, stepErrors] at he
      simp at he
      rcases he with hmem | hmem
      · exact Or.inl hmem
      · exact Or.inr (Or.inl ⟨e2.toMessage, hmem, hp2⟩)
    · simp only [runKey23, hk2, hk3, stepErrors] at he
      simp at he
      rcases he with hmem | hmem
      · exact Or.inl hmem
      · exact Or.inr (Or.inl ⟨e2.toMessage, hmem, hp2⟩)
    · simp only [runKey23, hk2, hk3, stepErrors] at he
      simp at he
      rcases he with hmem | hmem | hmem
      · exact Or.inl hmem
      · exact Or.inr (Or.inl ⟨e2.toMessage, hmem, hp2⟩)
      · exact Or.inr (Or.inr ⟨m3, hmem, hp3⟩)
    · simp only [runKey23, hk2, hk3, stepErrors] at he
      simp at he
      rcases he with hmem | hmem
      · exact Or.inl hmem
      · exact Or.inr (Or.inl ⟨e2.toMessage, hmem, hp2⟩)

theorem invokeRun_errors {s : Settings} {net : Net} {boto : BotoNet}
    {msgs : List Message} {sys : Option String} :
    ∀ e ∈ (invokeRun s net boto msgs sys).2.1,
      (∃ m, e = "bearer: " ++ m ∧ s.aws_bearer_token_bedrock ≠ "") ∨
      (∃ m, e = "boto3_event: " ++ m ∧
        s.aws_access_key_id ≠ "" ∧ s.aws_secret_access_key ≠ "") ∨
      (∃ m, e = "absk: " ++ m ∧ s.aws_bedrock_api_key_backup ≠ "") := by
  intro e he
  rcases runKey1_spec s net msgs sys with ⟨hk1, _⟩ | ⟨tr1, r1, hch1, hk1, hp1⟩ |
    ⟨tr1, m1, hch1, hk1, hp1⟩ | ⟨tr1, e1, hch1, hne1, hk1, hp1⟩
  · simp only [invokeRun, hk1, stepErrors] at he
    rcases runKey23_errors e he with hmem | h | h
    · simp at hmem
    · exact Or.inr (Or.inl h)
    · exact Or.inr (Or.inr h)
  · simp only [invokeRun, hk1] at he
    simp at he
  · simp only [invokeRun, hk1, stepErrors] at he
    rcases runKey23_errors e he with hmem | h | h
    · exact Or.inl ⟨m1, List.mem_singleton.mp hmem, hp1⟩
    · exact Or.inr (Or.inl h)
    · exact Or.inr (Or.inr h)
  · rcases e1 with m | m | m
    · exact absurd rfl (hne1 m)
    · simp only [invokeRun, hk1] at he
      simp at he
    · simp only [invokeRun, hk1] at he
      simp at he

theorem runKey23_eq_success2 {s : Settings} {net : Net} {boto : BotoNet}
    {msgs : List Message} {sys : Option String} {errs : List String}
    {t2 : List Attempt} {r : InvocationResult}
    (hk2 : runKey2 s boto msgs sys = (t2, .success r)) :
    runKey23 s net boto msgs sys errs = (t2, errs, .ok r) := by
  simp [runKey23, hk2]

theorem runKey23_eq_key3_success {s : Settings} {net : Net} {boto : BotoNet}
    {msgs : List Message} {sys : Option String} {errs : List String}
    {t2 t3 : List Attempt} {st2 : StepRes} {r : InvocationResult}
    (hk2 : runKey2 s boto msgs sys = (t2, st2))
    (hpass : (∃ en, st2 = .captured en) ∨ st2 = .skipped)
    (hk3 : runKey3 s net msgs sys = (t3, .success r)) :
    runKey23 s net boto msgs sys errs = (t2 ++ t3, errs ++ stepErrors st2, .ok r) := by
  rcases hpass with ⟨en, rfl⟩ | rfl <;> simp [runKey23, hk2, hk3, stepErrors]

theorem runKey23_eq_key3_captured {s : Settings} {net : Net} {boto : BotoNet}
    {msgs : List Message} {sys : Option String} {errs : List String}
    {t2 t3 : List Attempt} {st2 : StepRes} {en3 : String}
    (hk2 : runKey2 s boto msgs sys = (t2, st2))
    (hpass : (∃ en, st2 = .captured en) ∨ st2 = .skipped)
    (hk3 : runKey3 s net msgs sys = (t3, .captured en3)) :
    runKey23 s net boto msgs sys errs =
      (t2 ++ t3, errs ++ stepErrors st2 ++ [en3],
       .error (.runtime (allFailedMsg (errs ++ stepErrors st2 ++ [en3])))) := by
  rcases hpass with ⟨en, rfl⟩ | rfl <;> simp [runKey23, hk2, hk3, stepErrors]

theorem runKey23_eq_key3_fatal {s : Settings} {net : Net} {boto : BotoNet}
    {msgs : List Message} {sys : Option String} {errs : List String}
    {t2 t3 : List Attempt} {st2 : StepRes} {e : Err}
    (hk2 : runKey2 s boto msgs sys = (t2, st2))
    (hpass : (∃ en, st2 = .captured en) ∨ st2 = .skipped)
    (hk3 : runKey3 s net msgs sys = (t3, .fatal e)) :
    runKey23 s net boto msgs sys errs =
      (t2 ++ t3, errs ++ stepErrors st2, .error e) := by
  rcases hpass with ⟨en, rfl⟩ | rfl <;> simp [runKey23, hk2, hk3, stepErrors]

theorem runKey23_eq_key3_skipped {s : Settings} {net : Net} {boto : BotoNet}
    {msgs : List Message} {sys : Option String} {errs : List String}
    {t2 t3 : List Attempt} {st2 : StepRes}
    (hk2 : runKey2 s boto msgs sys = (t2, st2))
    (hpass : (∃ en, st2 = .captured en) ∨ st2 = .skipped)
    (hk3 : runKey3 s net msgs sys = (t3, .skipped)) :
    runKey23 s net boto msgs sys errs =
      (t2 ++ t3, errs ++ stepErrors st2,
       .error (.runtime (allFailedMsg (errs ++ stepErrors st2)))) := by
  rcases hpass with ⟨en, rfl⟩ | rfl <;> simp [runKey23, hk2, hk3, stepErrors]

theorem invokeRun_eq_success1 {s : Settings} {net : Net} {boto : BotoNet}
    {msgs : List Message} {sys : Option String} {t1 : List Attempt} {r : InvocationResult}
    (hk1 : runKey1 s net msgs sys = (t1, .success r)) :
    invokeRun s net boto msgs sys = (t1, [], .ok r) := by
  simp [invokeRun, hk1]

theorem invokeRun_eq_fatal1 {s : Settings} {net : Net} {boto : BotoNet}
    {msgs : List Message} {sys : Option String} {t1 : List Attempt} {e : Err}
    (hk1 : runKey1 s net msgs sys = (t1, .fatal e)) :
    invokeRun s net boto msgs sys = (t1, [], .error e) := by
  simp [invokeRun, hk1]

theorem invokeRun_eq_pass1 {s : Settings} {net : Net} {boto : BotoNet}
    {msgs : List Message} {sys : Option String} {t1 : List Attempt} {st1 : StepRes}
    (hk1 : runKey1 s net msgs sys = (t1, st1))
    (hpass : (∃ en, st1 = .captured en) ∨ st1 = .skipped) :
    invokeRun s net boto msgs sys =
      (t1 ++ (runKey23 s net boto msgs sys (stepErrors st1)).1,
       (runKey23 s net boto msgs sys (stepErrors st1)).2) := by
  rcases hrk : runKey23 s net boto msgs sys (stepErrors st1) with ⟨tr, errs, res⟩
  rcases hpass with ⟨en, rfl⟩ | rfl <;> simp [invokeRun, hk1, hrk]

theorem runKey1_pass_or_success {s : Settings} {net : Net} {msgs : List Message}
    {sys : Option String} (hb : NetBenign net) :
    (∃ t1 r, runKey1 s net msgs sys = (t1, .success r)) ∨
    (∃ t1 st1, runKey1 s net msgs sys = (t1, st1) ∧
      ((∃ en, st1 = .captured en) ∨ st1 = .skipped)) := by
  rcases runKey1_spec s net msgs sys with ⟨hk1, _⟩ | ⟨tr1, r1, hch1, hk1, _⟩ |
    ⟨tr1, m1, hch1, hk1, _⟩ | ⟨tr1, e1, hch1, hne1, hk1, _⟩
  · exact Or.inr ⟨[], .skipped, hk1, Or.inr rfl⟩
  · exact Or.inl ⟨tr1, r1, hk1⟩
  · exact Or.inr ⟨tr1, _, hk1, Or.inl ⟨_, rfl⟩⟩
  · exfalso
    rcases bearerChainGo_benign hb s.aws_bearer_token_bedrock msgs sys
        BEARER_FALLBACK_CHAIN "empty bearer chain" with ⟨r0, h0⟩ | ⟨m0, h0⟩
    · have h0' : (bearerChain net s.aws_bearer_token_bedrock msgs sys).2 = .ok r0 := h0
      rw [hch1] at h0'
      simp at h0'
    · have h0' : (bearerChain net s.aws_bearer_token_bedrock msgs sys).2 =
        .error (.runtime m0) := h0
      rw [hch1] at h0'
      have : e1 = .runtime m0 := by
        cases h0'
        rfl
      exact hne1 m0 this

theorem runKey3_pass_or_success {s : Settings} {net : Net} {msgs : List Message}
    {sys : Option String} (hb : NetBenign net) :
    (∃ t3 r, runKey3 s net msgs sys = (t3, .success r)) ∨
    (∃ t3 st3, runKey3 s net msgs sys = (t3, st3) ∧
      ((∃ en, st3 = .captured en) ∨ st3 = .skipped)) := by
  rcases runKey3_spec s net msgs sys with ⟨hk3, _⟩ | ⟨tr3, r3, hch3, hk3, _⟩ |
    ⟨tr3, m3, hch3, hk3, _⟩ | ⟨tr3, e3, hch3, hne3, hk3, _⟩
  · exact Or.inr ⟨[], .skipped, hk3, Or.inr rfl⟩
  · exact Or.inl ⟨tr3, r3, hk3⟩
  · exact Or.inr ⟨tr3, _, hk3, Or.inl ⟨_, rfl⟩⟩
  · exfalso
    rcases abskChainGo_benign hb s.aws_bedrock_api_key_backup msgs sys
        ABSK_FALLBACK_CHAIN "empty ABSK chain" with ⟨r0, h0⟩ | ⟨m0, h0⟩
    · have h0' : (abskChain net s.aws_bedrock_api_key_backup msgs sys).2 = .ok r0 := h0
      rw [hch3] at h0'
      simp at h0'
    · have h0' : (abskChain net s.aws_bedrock_api_key_backup msgs sys).2 =
        .error (.runtime m0) := h0
      rw [hch3] at h0'
      have : e3 = .runtime m0 := by
        cases h0'
        rfl
      exact hne3 m0 this

theorem invokeRun_ok_of_first (s : Settings) (net : Net) (boto : BotoNet)
    (msgs : List Message) (sys : Option String) (hb : NetBenign net)
    (hf : FirstCandidate200 s net boto) :
    ∃ r, (invokeRun s net boto msgs sys).2.2 = .ok r := by
  rcases hf with ⟨hp1, t, d, hnet⟩ | ⟨hpA, hpS, d, r2, hboto, hparse⟩ | ⟨hp3, t, d, hnet⟩
  · obtain ⟨r, hr⟩ := (hb s.aws_bearer_token_bedrock "us-west-2" HACKATHON_PROFILE_ID).2 t d hnet
    have hhttp : httpInvoke net s.aws_bearer_token_bedrock "us-west-2" HACKATHON_PROFILE_ID
        ("bearer_hackathon/" ++ "us-west-2") = .ok r := by
      simp [httpInvoke, hnet, hr]
    have hchain : bearerChain net s.aws_bearer_token_bedrock msgs sys =
        ([⟨Cred.bearer, "us-west-2", HACKATHON_PROFILE_ID, build_body msgs sys, .ok r⟩],
         .ok r) :=
      bearerChainGo_first_ok hhttp _ _
    have hk1 : runKey1 s net msgs sys =
        ([⟨Cred.bearer, "us-west-2", HACKATHON_PROFILE_ID, build_body msgs sys, .ok r⟩],
         .success r) := by
      simp [runKey1, hp1, hchain]
    exact ⟨r, by rw [invokeRun_eq_success1 hk1]⟩
  · have hbch : botoChain boto msgs sys =
        ([⟨Cred.boto3, "us-west-2", HACKATHON_PROFILE_ARN, build_body msgs sys, .ok r2⟩],
         .ok r2) :=
      botoChainGo_first_ok hboto hparse _ _
    have hk2 : runKey2 s boto msgs sys =
        ([⟨Cred.boto3, "us-west-2", HACKATHON_PROFILE_ARN, build_body msgs sys, .ok r2⟩],
         .success r2) := by
      simp only [runKey2]
      rw [if_pos ⟨hpA, hpS⟩, hbch]
    rcases runKey1_pass_or_success hb with ⟨t1, r1, hk1⟩ | ⟨t1, st1, hk1, hpass⟩
    · exact ⟨r1, by rw [invokeRun_eq_success1 hk1]⟩
    · refine ⟨r2, ?_⟩
      rw [invokeRun_eq_pass1 hk1 hpass]
      rw [runKey23_eq_success2 hk2]
  · obtain ⟨r3, hr3⟩ := (hb s.aws_bedrock_api_key_backup "us-west-2" MODEL_SONNET_46).2 t d hnet
    have hhttp : httpInvoke net s.aws_bedrock_api_key_backup "us-west-2" MODEL_SONNET_46
        ("absk_personal/" ++ "us-west-2") = .ok r3 := by
      simp [httpInvoke, hnet, hr3]
    have hchain : abskChain net s.aws_bedrock_api_key_backup msgs sys =
        ([⟨Cred.absk, "us-west-2", MODEL_SONNET_46, build_body msgs sys, .ok r3⟩],
         .ok r3) :=
      abskChainGo_first_ok hhttp _ _
    have hk3 : runKey3 s net msgs sys =
        ([⟨Cred.absk, "us-west-2", MODEL_SONNET_46, build_body msgs sys, .ok r3⟩],
         .success r3) := by
      simp [runKey3, hp3, hchain]
    rcases runKey1_pass_or_success hb with ⟨t1, r1, hk1⟩ | ⟨t1, st1, hk1, hpass⟩
    · exact ⟨r1, by rw [invokeRun_eq_success1 hk1]⟩
    · rcases runKey2_spec s boto msgs sys with ⟨hk2, _⟩ | ⟨tr2, rb, hch2, hk2, _⟩ |
        ⟨tr2, e2, hch2, hk2, _⟩
      · refine ⟨r3, ?_⟩
        rw [invokeRun_eq_pass1 hk1 hpass]
        rw [runKey23_eq_key3_success hk2 (Or.inr rfl) hk3]
      · exact ⟨rb, by rw [invokeRun_eq_pass1 hk1 hpass, runKey23_eq_success2 hk2]⟩
      · refine ⟨r3, ?_⟩
        rw [invokeRun_eq_pass1 hk1 hpass]
        rw [runKey23_eq_key3_success hk2 (Or.inl ⟨_, rfl⟩) hk3]

theorem httpInvoke_fail {net : Net} {tok region model : String} {st : Nat}
    {tx : String} {d : RespData} (label : String)
    (hnet : net tok region model = .resp st tx d) (hst : st ≠ 200) :
    httpInvoke net tok region model label = .error (.runtime (httpFailMsg st label tx)) := by
  simp [httpInvoke, hnet, hst]

theorem bearerChainGo_allfail {net : Net} (hf : NetAllFail net) (tok : String)
    (msgs : List Message) (sys : Option String) :
    ∀ (l : List (String × String)), l ≠ [] → ∀ m0,
      ∃ region st tx, (bearerChainGo net tok msgs sys l (.runtime m0)).2 =
        .error (.runtime (httpFailMsg st ("bearer_hackathon/" ++ region) tx)) := by
  intro l
  induction l with
  | nil => intro h; exact absurd rfl h
  | cons c rest ih =>
      obtain ⟨region, model⟩ := c
      intro _ m0
      obtain ⟨st, tx, d, hnet, hst⟩ := hf tok region model
      have hh := httpInvoke_fail ("bearer_hackathon/" ++ region) hnet hst
      by_cases hs : bearerStop (httpFailMsg st ("bearer_hackathon/" ++ region) tx) = true
      · exact ⟨region, st, tx, by rw [bearerChainGo_stop hh hs]⟩
      · rw [bearerChainGo_continue hh (by simpa using hs)]
        rcases rest with _ | ⟨c2, rest2⟩
        · exact ⟨region, st, tx, by simp [bearerChainGo]⟩
        · exact ih (by simp) _

theorem abskChainGo_allfail {net : Net} (hf : NetAllFail net) (tok : String)
    (msgs : List Message) (sys : Option String) :
    ∀ (l : List (String × String)), l ≠ [] → ∀ m0,
      ∃ region st tx, (abskChainGo net tok msgs sys l (.runtime m0)).2 =
        .error (.runtime (httpFailMsg st ("absk_personal/" ++ region) tx)) := by
  intro l
  induction l with
  | nil => intro h; exact absurd rfl h
  | cons c rest ih =>
      obtain ⟨region, model⟩ := c
      intro _ m0
      obtain ⟨st, tx, d, hnet, hst⟩ := hf tok region model
      have hh := httpInvoke_fail ("absk_personal/" ++ region) hnet hst
      by_cases hs : abskStop (httpFailMsg st ("absk_personal/" ++ region) tx) = true
      · exact ⟨region, st, tx, by rw [abskChainGo_stop hh hs]⟩
      · rw [abskChainGo_continue hh (by simpa using hs)]
        rcases rest with _ | ⟨c2, rest2⟩
        · exact ⟨region, st, tx, by simp [abskChainGo]⟩
        · exact ih (by simp) _

theorem botoChainGo_allfail {boto : BotoNet} (hfb : BotoAllFail boto)
    (msgs : List Message) (sys : Option String) :
    ∀ (l : List (String × String)) (last : Err),
      ∃ e, (botoChainGo boto msgs sys l last).2 = .error e := by
  intro l
  induction l with
  | nil => intro last; exact ⟨last, by simp [botoChainGo]⟩
  | cons c rest ih =>
      obtain ⟨region, model⟩ := c
      intro last
      obtain ⟨m, hm⟩ := hfb region model
      by_cases hs : botoFastFail m = true
      · refine ⟨.runtime ("boto3 hackathon IAM block: " ++ m.take 200), ?_⟩
        simp [botoChainGo, hm, hs]
      · obtain ⟨e, he⟩ := ih (Err.other m)
        refine ⟨e, ?_⟩
        rcases hrec : botoChainGo boto msgs sys rest (.other m) with ⟨tr', res'⟩
        rw [hrec] at he
        simp [botoChainGo, hm, hs, hrec]
        simpa using he

theorem runKey1_allfail {s : Settings} {net : Net} {msgs : List Message}
    {sys : Option String} (hf : NetAllFail net) :
    (s.aws_bearer_token_bedrock = "" ∧ runKey1 s net msgs sys = ([], .skipped)) ∨
    (s.aws_bearer_token_bedrock ≠ "" ∧ ∃ t1 region st tx,
      runKey1 s net msgs sys =
        (t1, .captured ("bearer: " ++ httpFailMsg st ("bearer_hackathon/" ++ region) tx))) := by
  by_cases hp : s.aws_bearer_token_bedrock ≠ ""
  · obtain ⟨region, st, tx, hres⟩ := bearerChainGo_allfail hf s.aws_bearer_token_bedrock
      msgs sys BEARER_FALLBACK_CHAIN (by simp [BEARER_FALLBACK_CHAIN]) "empty bearer chain"
    have h2 : (bearerChain net s.aws_bearer_token_bedrock msgs sys).2 =
        .error (.runtime (httpFailMsg st ("bearer_hackathon/" ++ region) tx)) := hres
    rcases hch : bearerChain net s.aws_bearer_token_bedrock msgs sys with ⟨tr, res⟩
    rw [hch] at h2
    simp only at h2
    subst h2
    exact Or.inr ⟨hp, tr, region, st, tx, by simp [runKey1, hp, hch]⟩
  · have hp0 : s.aws_bearer_token_bedrock = "" := by simpa using hp
    exact Or.inl ⟨hp0, by simp [runKey1, hp0]⟩

theorem runKey3_allfail {s : Settings} {net : Net} {msgs : List Message}
    {sys : Option String} (hf : NetAllFail net) :
    (s.aws_bedrock_api_key_backup = "" ∧ runKey3 s net msgs sys = ([], .skipped)) ∨
    (s.aws_bedrock_api_key_backup ≠ "" ∧ ∃ t3 region st tx,
      runKey3 s net msgs sys =
        (t3, .captured ("absk: " ++ httpFailMsg st ("absk_personal/" ++ region) tx))) := by
  by_cases hp : s.aws_bedrock_api_key_backup ≠ ""
  · obtain ⟨region, st, tx, hres⟩ := abskChainGo_allfail hf s.aws_bedrock_api_key_backup
      msgs sys ABSK_FALLBACK_CHAIN (by simp [ABSK_FALLBACK_CHAIN]) "empty ABSK chain"
    have h2 : (abskChain net s.aws_bedrock_api_key_backup msgs sys).2 =
        .error (.runtime (httpFailMsg st ("absk_personal/" ++ region) tx)) := hres
    rcases hch : abskChain net s.aws_bedrock_api_key_backup msgs sys with ⟨tr, res⟩
    rw [hch] at h2
    simp only at h2
    subst h2
    exact Or.inr ⟨hp, tr, region, st, tx, by simp [runKey3, hp, hch]⟩
  · have hp0 : s.aws_bedrock_api_key_backup = "" := by simpa using hp
    exact Or.inl ⟨hp0, by simp [runKey3, hp0]⟩

theorem runKey2_allfail {s : Settings} {boto : BotoNet} {msgs : List Message}
    {sys : Option String} (hfb : BotoAllFail boto) :
    (¬(s.aws_access_key_id ≠ "" ∧ s.aws_secret_access_key ≠ "") ∧
      runKey2 s boto msgs sys = ([], .skipped)) ∨
    ((s.aws_access_key_id ≠ "" ∧ s.aws_secret_access_key ≠ "") ∧ ∃ t2 m2,
      runKey2 s boto msgs sys = (t2, .captured ("boto3_event: " ++ m2))) := by
  by_cases hp : s.aws_access_key_id ≠ "" ∧ s.aws_secret_access_key ≠ ""
  · obtain ⟨e2, hres⟩ := botoChainGo_allfail hfb msgs sys botoAttempts
      (.runtime "boto3 hackathon: empty chain")
    have h2 : (botoChain boto msgs sys).2 = .error e2 := hres
    rcases hch : botoChain boto msgs sys with ⟨tr, res⟩
    rw [hch] at h2
    simp only at h2
    subst h2
    refine Or.inr ⟨hp, tr, e2.toMessage, ?_⟩
    simp only [runKey2]
    rw [if_pos hp, hch]
  · exact Or.inl ⟨hp, by simp [runKey2, hp]⟩

end Bedrock

namespace MiniMax

theorem join_cons (t : String) (l : List String) :
    String.join (t :: l) = t ++ String.join l := by
  have haux : ∀ (l2 : List String) (a : String),
      l2.foldl (· ++ ·) a = a ++ l2.foldl (· ++ ·) "" := by
    intro l2
    induction l2 with
    | nil => intro a; simp
    | cons u rest ih =>
        intro a
        simp only [List.foldl]
        rw [ih (a ++ u), ih ("" ++ u), String.empty_append, String.append_assoc]
  show (t :: l).foldl (· ++ ·) "" = t ++ l.foldl (· ++ ·) ""
  simp only [List.foldl]
  rw [haux l ("" ++ t), String.empty_append]

theorem extractContent_eq (blocks : List Block) :
    extractContent blocks = String.join (blocks.filterMap Block.text) := by
  have haux : ∀ (bs : List Block) (acc : String),
      bs.foldl (fun acc b =>
        match b.text with
        | some t => acc ++ t
        | none => acc) acc = acc ++ String.join (bs.filterMap Block.text) := by
    intro bs
    induction bs with
    | nil => intro acc; simp [String.join]
    | cons b rest ih =>
        intro acc
        rcases hb : b.text with _ | t
        · simp only [List.foldl, hb, List.filterMap_cons]
          rw [ih acc]
        · simp only [List.foldl, hb, List.filterMap_cons]
          rw [ih (acc ++ t), join_cons, String.append_assoc]
  rw [extractContent, haux, String.empty_append]

theorem invokeGo_continue {mm : MMNet} {model m : String} (rest : List String) (last : Err)
    (hm : mm model = .exn m) (hcont : modelNotFound m = true) :
    invokeGo mm (model :: rest) last =
      (model :: (invokeGo mm rest (.other m)).1, (invokeGo mm rest (.other m)).2) := by
  rcases hrec : invokeGo mm rest (.other m) with ⟨tr, res⟩
  simp [invokeGo, hm, hcont, hrec]

theorem invoke_first_ok {apiKey : String} {mm : MMNet} {resp : MMResp}
    (hk : apiKey ≠ "") (hm : mm "MiniMax-M2.5-highspeed" = .ok resp) :
    invoke apiKey mm =
      (["MiniMax-M2.5-highspeed"],
       .ok ⟨extractContent resp.content, "minimax/" ++ "MiniMax-M2.5-highspeed",
            resp.usage_input.getD 0, resp.usage_output.getD 0,
            resp.stop_reason.getD "end_turn"⟩) := by
  simp [invoke, hk, MODEL_CHAIN, invokeGo, hm]

end MiniMax

namespace Debate

theorem foldl_no_system :
    ∀ (l : List Message), (∀ m ∈ l, m.role ≠ "system") →
      ∀ acc : Option String × List Message,
        l.foldl inferStep acc = (acc.1, acc.2 ++ l) := by
  intro l
  induction l with
  | nil => intro _ acc; simp
  | cons m rest ih =>
      intro h acc
      have hm : m.role ≠ "system" := h m (List.mem_cons_self m rest)
      simp only [List.foldl, inferStep, if_neg hm]
      rw [ih (fun x hx => h x (List.mem_cons_of_mem m hx))]
      simp

theorem inferSplit_single_system {pre post : List Message} {ms : Message}
    (hms : ms.role = "system")
    (hpre : ∀ m ∈ pre, m.role ≠ "system")
    (hpost : ∀ m ∈ post, m.role ≠ "system") :
    inferSplit (pre ++ ms :: post) = (some ms.content, pre ++ post) := by
  rw [inferSplit, List.foldl_append, foldl_no_system pre hpre]
  simp only [List.foldl, inferStep, if_pos hms]
  rw [foldl_no_system post hpost]
  simp

end Debate

namespace Bedrock

theorem textParts_ok :
    ∀ (blocks : List Block), (∀ b ∈ blocks, b.type = some "text" → b.text ≠ none) →
      textParts blocks = .ok (textsOf blocks) := by
  intro blocks
  induction blocks with
  | nil => intro _; simp [textParts, textsOf]
  | cons b rest ih =>
      intro h
      have hrest := ih fun x hx => h x (List.mem_cons_of_mem b hx)
      by_cases ht : b.type = some "text"
      · rcases hb : b.text with _ | t
        · exact absurd hb (h b (List.mem_cons_self b rest) ht)
        · simp [textParts, textsOf, ht, hb, hrest, List.filterMap_cons]
      · simp only [textParts, textsOf, List.filterMap_cons, if_neg ht]
        simpa [textsOf] using hrest

theorem textParts_bad :
    ∀ (blocks : List Block), (∃ b ∈ blocks, b.type = some "text" ∧ b.text = none) →
      textParts blocks = .error (.keyError "text") := by
  intro blocks
  induction blocks with
  | nil => intro h; simp at h
  | cons b rest ih =>
      intro h
      by_cases ht : b.type = some "text"
      · rcases hb : b.text with _ | t
        · simp [textParts, ht, hb]
        · have hbad : ∃ x ∈ rest, x.type = some "text" ∧ x.text = none := by
            rcases h with ⟨x, hx, hxt, hxn⟩
            rcases List.mem_cons.mp hx with rfl | hx2
            · rw [hb] at hxn
              cases hxn
            · exact ⟨x, hx2, hxt, hxn⟩
          simp [textParts, ht, hb, ih hbad]
      · have hbad : ∃ x ∈ rest, x.type = some "text" ∧ x.text = none := by
          rcases h with ⟨x, hx, hxt, hxn⟩
          rcases List.mem_cons.mp hx with rfl | hx2
          · exact absurd hxt ht
          · exact ⟨x, hx2, hxt, hxn⟩
        simp [textParts, ht, ih hbad]

theorem parseResponse_ok {data : RespData}
    (h : ∀ b ∈ data.content, b.type = some "text" → b.text ≠ none) :
    parseResponse data =
      .ok ⟨String.intercalate "\n" (textsOf data.content),
           data.model.getD MODEL_SONNET_46,
           (data.usage.getD ⟨none, none⟩).input_tokens.getD 0,
           (data.usage.getD ⟨none, none⟩).output_tokens.getD 0,
           data.stop_reason.getD ""⟩ := by
  rw [parseResponse, textParts_ok data.content h]
  by_cases hp : textsOf data.content = []
  · simp [hp, String.intercalate]
  · simp [hp]

theorem parseResponse_bad {data : RespData}
    (h : ∃ b ∈ data.content, b.type = some "text" ∧ b.text = none) :
    parseResponse data = .error (.keyError "text") := by
  rw [parseResponse, textParts_bad data.content h]

end Bedrock

/-! The claims. -/

/-- C1: first-success-wins.  For every configuration (settings, benign
HTTP oracle, boto3 oracle) in which at least one attempted credential
descriptor has a first candidate answering HTTP 200, `BedrockService.invoke`
returns `Except.ok` with the parsed result of the first successful
attempt, the trace ends at that successful attempt (so no candidate of a
later descriptor and no later candidate of the same descriptor is
attempted after it), and every earlier attempt failed.  The benignity
hypothesis states that the oracle raises no transport exception and that
200 bodies are parseable, the provider behaviour presupposed by the
notion, in the claim, of an attempt returning HTTP 200. -/
theorem C1_first_success_wins (s : Settings) (net : Net) (boto : BotoNet)
    (msgs : List Message) (sys : Option String)
    (hb : Bedrock.NetBenign net) (hf : Bedrock.FirstCandidate200 s net boto) :
    ∃ r pre a,
      (Bedrock.invokeRun s net boto msgs sys).2.2 = Except.ok r ∧
      (Bedrock.invokeRun s net boto msgs sys).1 = pre ++ [a] ∧
      a.outcome = Except.ok r ∧ Bedrock.allFailed pre := by
  obtain ⟨r, hok⟩ := Bedrock.invokeRun_ok_of_first s net boto msgs sys hb hf
  obtain ⟨pre, a, htr, ha, hpre⟩ := Bedrock.invokeRun_ok_shape hok
  exact ⟨r, pre, a, hok, htr, ha, hpre⟩

/-- Witness for C1 at a concrete input: all three credentials present
and an oracle answering 200 with a well-formed body everywhere. -/
theorem C1_first_success_wins_witness :
    Bedrock.NetBenign netAll200 ∧ Bedrock.FirstCandidate200 sAll netAll200 botoNone ∧
    ∃ r pre a,
      (Bedrock.invokeRun sAll netAll200 botoNone [] none).2.2 = Except.ok r ∧
      (Bedrock.invokeRun sAll netAll200 botoNone [] none).1 = pre ++ [a] ∧
      a.outcome = Except.ok r ∧ Bedrock.allFailed pre := by
  have hb : Bedrock.NetBenign netAll200 := by
    intro tok region model
    refine ⟨fun e h => HttpOutcome.noConfusion h, fun t d hres => ?_⟩
    have hd : okData = d := by
      injection hres
    exact ⟨okResult, by rw [← hd]; rfl⟩
  have hf : Bedrock.FirstCandidate200 sAll netAll200 botoNone :=
    Or.inl ⟨by decide, "", okData, rfl⟩
  exact ⟨hb, hf, C1_first_success_wins sAll netAll200 botoNone [] none hb hf⟩

/-- C2 counterexample: a candidate attempt failing with HTTP 401 does
NOT cause the orchestrator to abandon the remaining candidates of the
descriptor.  With only the bearer descriptor configured and its first
candidate answering 401 with body `Unauthorized`, all three candidates
of the bearer chain are attempted: the code inspects only message
substrings, never the 401 status. -/
theorem C2_counterexample :
    netC2 "bearer-tok" "us-west-2" Bedrock.HACKATHON_PROFILE_ID =
      HttpOutcome.resp 401 "Unauthorized" errData ∧
    (Bedrock.invokeRun sBearerOnly netC2 botoNone [] none).1.map
        (fun a => (a.method, a.region, a.model)) =
      [(Bedrock.Cred.bearer, "us-west-2", Bedrock.HACKATHON_PROFILE_ID),
       (Bedrock.Cred.bearer, "us-west-2", "us.anthropic.claude-sonnet-4-20250514-v1:0"),
       (Bedrock.Cred.bearer, "us-west-2", Bedrock.MODEL_HAIKU_35)] :=
  ⟨rfl, by rfl⟩

/-- C2 amended: descriptor abandonment is driven by substring tests on
the failure message, not by the HTTP status.  (a) In the bearer chain a
failure whose message satisfies `bearerStop` (`not authorized` together
with `WSParticipantRole`, or `403` together with `AccessDenied` or
`Forbidden`) abandons every remaining candidate of the descriptor at
once; (b) likewise in the ABSK chain for `abskStop` (`authentication
failed` without `bedrock-api-key`); (c) at the `invoke` level, after
such an abandonment on the first bearer candidate the captured error is
recorded and execution proceeds directly to the remaining descriptors,
which never issue a bearer attempt.  A bare HTTP 401 triggers none of
this (see the counterexample). -/
theorem C2_auth_abandon_amended :
    (∀ (net : Net) (tok : String) (msgs : List Message) (sys : Option String)
       (region model : String) (rest : List (String × String)) (last : Err)
       (st : Nat) (tx : String) (d : RespData),
       net tok region model = .resp st tx d → st ≠ 200 →
       Bedrock.bearerStop (Bedrock.httpFailMsg st ("bearer_hackathon/" ++ region) tx) = true →
       Bedrock.bearerChainGo net tok msgs sys ((region, model) :: rest) last =
         ([⟨Bedrock.Cred.bearer, region, model, Bedrock.build_body msgs sys,
            .error (.runtime (Bedrock.httpFailMsg st ("bearer_hackathon/" ++ region) tx))⟩],
          .error (.runtime (Bedrock.httpFailMsg st ("bearer_hackathon/" ++ region) tx)))) ∧
    (∀ (net : Net) (tok : String) (msgs : List Message) (sys : Option String)
       (region model : String) (rest : List (String × String)) (last : Err)
       (st : Nat) (tx : String) (d : RespData),
       net tok region model = .resp st tx d → st ≠ 200 →
       Bedrock.abskStop (Bedrock.httpFailMsg st ("absk_personal/" ++ region) tx) = true →
       Bedrock.abskChainGo net tok msgs sys ((region, model) :: rest) last =
         ([⟨Bedrock.Cred.absk, region, model, Bedrock.build_body msgs sys,
            .error (.runtime (Bedrock.httpFailMsg st ("absk_personal/" ++ region) tx))⟩],
          .error (.runtime (Bedrock.httpFailMsg st ("absk_personal/" ++ region) tx)))) ∧
    (∀ (s : Settings) (net : Net) (boto : BotoNet) (msgs : List Message)
       (sys : Option String) (st : Nat) (tx : String) (d : RespData),
       s.aws_bearer_token_bedrock ≠ "" →
       net s.aws_bearer_token_bedrock "us-west-2" Bedrock.HACKATHON_PROFILE_ID =
         .resp st tx d →
       st ≠ 200 →
       Bedrock.bearerStop
         (Bedrock.httpFailMsg st ("bearer_hackathon/" ++ "us-west-2") tx) = true →
       (Bedrock.invokeRun s net boto msgs sys).1 =
         ⟨Bedrock.Cred.bearer, "us-west-2", Bedrock.HACKATHON_PROFILE_ID,
          Bedrock.build_body msgs sys,
          .error (.runtime
            (Bedrock.httpFailMsg st ("bearer_hackathon/" ++ "us-west-2") tx))⟩ ::
           (Bedrock.runKey23 s net boto msgs sys
             ["bearer: " ++
               Bedrock.httpFailMsg st ("bearer_hackathon/" ++ "us-west-2") tx]).1 ∧
       (Bedrock.invokeRun s net boto msgs sys).2 =
         (Bedrock.runKey23 s net boto msgs sys
           ["bearer: " ++
             Bedrock.httpFailMsg st ("bearer_hackathon/" ++ "us-west-2") tx]).2 ∧
       ∀ b ∈ (Bedrock.runKey23 s net boto msgs sys
           ["bearer: " ++
             Bedrock.httpFailMsg st ("bearer_hackathon/" ++ "us-west-2") tx]).1,
         b.method ≠ Bedrock.Cred.bearer) := by
  refine ⟨?_, ?_, ?_⟩
  · intro net tok msgs sys region model rest last st tx d hnet hst hstop
    exact Bedrock.bearerChainGo_stop
      (Bedrock.httpInvoke_fail ("bearer_hackathon/" ++ region) hnet hst) hstop rest last
  · intro net tok msgs sys region model rest last st tx d hnet hst hstop
    exact Bedrock.abskChainGo_stop
      (Bedrock.httpInvoke_fail ("absk_personal/" ++ region) hnet hst) hstop rest last
  · intro s net boto msgs sys st tx d hp hnet hst hstop
    have hh := Bedrock.httpInvoke_fail ("bearer_hackathon/" ++ "us-west-2") hnet hst
    have hchain : Bedrock.bearerChain net s.aws_bearer_token_bedrock msgs sys =
        ([⟨Bedrock.Cred.bearer, "us-west-2", Bedrock.HACKATHON_PROFILE_ID,
           Bedrock.build_body msgs sys,
           .error (.runtime
             (Bedrock.httpFailMsg st ("bearer_hackathon/" ++ "us-west-2") tx))⟩],
         .error (.runtime
           (Bedrock.httpFailMsg st ("bearer_hackathon/" ++ "us-west-2") tx))) :=
      Bedrock.bearerChainGo_stop hh hstop _ _
    have hk1 : Bedrock.runKey1 s net msgs sys =
        ([⟨Bedrock.Cred.bearer, "us-west-2", Bedrock.HACKATHON_PROFILE_ID,
           Bedrock.build_body msgs sys,
           .error (.runtime
             (Bedrock.httpFailMsg st ("bearer_hackathon/" ++ "us-west-2") tx))⟩],
         .captured ("bearer: " ++
           Bedrock.httpFailMsg st ("bearer_hackathon/" ++ "us-west-2") tx)) := by
      simp [Bedrock.runKey1, hp, hchain]
    have heq := @Bedrock.invokeRun_eq_pass1 s net boto msgs sys _ _ hk1 (Or.inl ⟨_, rfl⟩)
    refine ⟨?_, ?_, ?_⟩
    · rw [heq]
      simp [Bedrock.stepErrors]
    · rw [heq]
      simp [Bedrock.stepErrors]
    · intro b hb
      rcases Bedrock.runKey23_trace b hb with h | h
      · have := Bedrock.runKey2_trace b h
        rw [this.1]
        simp
      · have := Bedrock.runKey3_trace b h
        rw [this.1]
        simp

/-- Witness for the amended C2 at a concrete input: a 403 AccessDenied
on the first bearer candidate abandons the bearer descriptor after one
attempt and execution proceeds to the remaining descriptors. -/
theorem C2_auth_abandon_amended_witness :
    sBearerAbsk.aws_bearer_token_bedrock ≠ "" ∧
    netC2b "bearer-tok" "us-west-2" Bedrock.HACKATHON_PROFILE_ID =
      HttpOutcome.resp 403 "AccessDenied" errData ∧
    (403 : Nat) ≠ 200 ∧
    Bedrock.bearerStop
      (Bedrock.httpFailMsg 403 ("bearer_hackathon/" ++ "us-west-2") "AccessDenied") = true ∧
    ((Bedrock.invokeRun sBearerAbsk netC2b botoNone [] none).1 =
       ⟨Bedrock.Cred.bearer, "us-west-2", Bedrock.HACKATHON_PROFILE_ID,
        Bedrock.build_body [] none,
        .error (.runtime
          (Bedrock.httpFailMsg 403 ("bearer_hackathon/" ++ "us-west-2") "AccessDenied"))⟩ ::
         (Bedrock.runKey23 sBearerAbsk netC2b botoNone [] none
           ["bearer: " ++
             Bedrock.httpFailMsg 403 ("bearer_hackathon/" ++ "us-west-2") "AccessDenied"]).1 ∧
     (Bedrock.invokeRun sBearerAbsk netC2b botoNone [] none).2 =
       (Bedrock.runKey23 sBearerAbsk netC2b botoNone [] none
         ["bearer: " ++
           Bedrock.httpFailMsg 403 ("bearer_hackathon/" ++ "us-west-2") "AccessDenied"]).2 ∧
     ∀ b ∈ (Bedrock.runKey23 sBearerAbsk netC2b botoNone [] none
         ["bearer: " ++
           Bedrock.httpFailMsg 403 ("bearer_hackathon/" ++ "us-west-2") "AccessDenied"]).1,
       b.method ≠ Bedrock.Cred.bearer) := by
  refine ⟨by decide, rfl, by decide, by decide, ?_⟩
  exact C2_auth_abandon_amended.2.2 sBearerAbsk netC2b botoNone [] none 403 "AccessDenied"
    errData (by decide) rfl (by decide) (by decide)

/-- C3 counterexample, two parts.  (i) MiniMaxChat does not continue on
a transient failure: with every model answering a 429 rate-limit error,
`invoke` raises after the FIRST model — the second and third models of
the chain are never attempted, because the loop only continues on
`model_not_found` or `404` in the message.  (ii) A network/timeout
failure in the Bedrock ABSK chain does not continue to the next
candidate either: the transport exception is not a RuntimeError, so it
escapes the chain and `invoke` itself, even though the second candidate
would have answered 200. -/
theorem C3_counterexample :
    (mm429 "MiniMax-M2.5-highspeed" = MiniMax.MMOutcome.exn "429 Too Many Requests" ∧
     MiniMax.invoke "k" mm429 =
       (["MiniMax-M2.5-highspeed"],
        .error (.runtime "MiniMax error (MiniMax-M2.5-highspeed): 429 Too Many Requests"))) ∧
    (netC3 "absk-tok" "us-west-2" Bedrock.MODEL_SONNET_46 =
       HttpOutcome.exn (.other "httpx.ConnectTimeout: timed out") ∧
     netC3 "absk-tok" "us-east-1" Bedrock.MODEL_SONNET_46 =
       HttpOutcome.resp 200 "" okData ∧
     Bedrock.invokeRun sAbskOnly netC3 botoNone [] none =
       ([⟨Bedrock.Cred.absk, "us-west-2", Bedrock.MODEL_SONNET_46,
          Bedrock.build_body [] none,
          .error (.other "httpx.ConnectTimeout: timed out")⟩],
        [], .error (.other "httpx.ConnectTimeout: timed out"))) :=
  ⟨⟨rfl, by rfl⟩, ⟨rfl, rfl, by rfl⟩⟩

/-- C3 amended.  (a) In the ABSK chain an HTTP failure (any non-200
status, in particular 429, 5xx and 404) whose message does not match the
`abskStop` substrings continues to the next candidate of the same
descriptor.  (b) Scenario B holds at the `invoke` level: with a single
ABSK descriptor whose first candidate answers 429 and second candidate
answers 200 with a parseable body, `invoke` returns the second
parsed success of the second candidate, and the trace is exactly those two attempts.
(c) In MiniMaxChat the loop continues to the next model exactly on
failures whose message contains `404` or `model_not_found`
(case-insensitive); transport/timeout failures in the Bedrock chains
propagate out of `invoke` instead of continuing (see counterexample). -/
theorem C3_transient_fallback_amended :
    (∀ (net : Net) (tok : String) (msgs : List Message) (sys : Option String)
       (region model : String) (rest : List (String × String)) (last : Err)
       (st : Nat) (tx : String) (d : RespData),
       net tok region model = .resp st tx d → st ≠ 200 →
       Bedrock.abskStop (Bedrock.httpFailMsg st ("absk_personal/" ++ region) tx) = false →
       Bedrock.abskChainGo net tok msgs sys ((region, model) :: rest) last =
         (⟨Bedrock.Cred.absk, region, model, Bedrock.build_body msgs sys,
           .error (.runtime (Bedrock.httpFailMsg st ("absk_personal/" ++ region) tx))⟩ ::
            (Bedrock.abskChainGo net tok msgs sys rest
              (.runtime (Bedrock.httpFailMsg st ("absk_personal/" ++ region) tx))).1,
          (Bedrock.abskChainGo net tok msgs sys rest
            (.runtime (Bedrock.httpFailMsg st ("absk_personal/" ++ region) tx))).2)) ∧
    (∀ (s : Settings) (net : Net) (boto : BotoNet) (msgs : List Message)
       (sys : Option String) (tx1 : String) (d1 : RespData) (tx2 : String)
       (d2 : RespData) (r : InvocationResult),
       s.aws_bearer_token_bedrock = "" → s.aws_access_key_id = "" →
       s.aws_bedrock_api_key_backup ≠ "" →
       net s.aws_bedrock_api_key_backup "us-west-2" Bedrock.MODEL_SONNET_46 =
         .resp 429 tx1 d1 →
       Bedrock.abskStop
         (Bedrock.httpFailMsg 429 ("absk_personal/" ++ "us-west-2") tx1) = false →
       net s.aws_bedrock_api_key_backup "us-east-1" Bedrock.MODEL_SONNET_46 =
         .resp 200 tx2 d2 →
       Bedrock.parseResponse d2 = .ok r →
       (Bedrock.invokeRun s net boto msgs sys).2.2 = .ok r ∧
       (Bedrock.invokeRun s net boto msgs sys).1.map
           (fun a => (a.method, a.region, a.model)) =
         [(Bedrock.Cred.absk, "us-west-2", Bedrock.MODEL_SONNET_46),
          (Bedrock.Cred.absk, "us-east-1", Bedrock.MODEL_SONNET_46)]) ∧
    (∀ (mm : MiniMax.MMNet) (model m : String) (rest : List String) (last : Err),
       mm model = .exn m → MiniMax.modelNotFound m = true →
       MiniMax.invokeGo mm (model :: rest) last =
         (model :: (MiniMax.invokeGo mm rest (.other m)).1,
          (MiniMax.invokeGo mm rest (.other m)).2)) := by
  refine ⟨?_, ?_, ?_⟩
  · intro net tok msgs sys region model rest last st tx d hnet hst hstop
    exact Bedrock.abskChainGo_continue
      (Bedrock.httpInvoke_fail ("absk_personal/" ++ region) hnet hst) hstop rest last
  · intro s net boto msgs sys tx1 d1 tx2 d2 r h1 h2 h3 hnet1 hstop hnet2 hparse
    have hh1 := Bedrock.httpInvoke_fail ("absk_personal/" ++ "us-west-2") hnet1
      (by decide : (429 : Nat) ≠ 200)
    have hh2 : Bedrock.httpInvoke net s.aws_bedrock_api_key_backup "us-east-1"
        Bedrock.MODEL_SONNET_46 ("absk_personal/" ++ "us-east-1") = .ok r := by
      simp [Bedrock.httpInvoke, hnet2, hparse]
    have hch : Bedrock.abskChain net s.aws_bedrock_api_key_backup msgs sys =
        ([⟨Bedrock.Cred.absk, "us-west-2", Bedrock.MODEL_SONNET_46,
           Bedrock.build_body msgs sys,
           .error (.runtime
             (Bedrock.httpFailMsg 429 ("absk_personal/" ++ "us-west-2") tx1))⟩,
          ⟨Bedrock.Cred.absk, "us-east-1", Bedrock.MODEL_SONNET_46,
           Bedrock.build_body msgs sys, .ok r⟩],
         .ok r) := by
      show Bedrock.abskChainGo net s.aws_bedrock_api_key_backup msgs sys
        (("us-west-2", Bedrock.MODEL_SONNET_46) ::
          ("us-east-1", Bedrock.MODEL_SONNET_46) ::
          [("us-west-2", Bedrock.MODEL_HAIKU_35),
           ("us-east-1", Bedrock.MODEL_HAIKU_35),
           ("us-east-1", Bedrock.MODEL_HAIKU_3)])
        (.runtime "empty ABSK chain") = _
      rw [Bedrock.abskChainGo_continue hh1 hstop, Bedrock.abskChainGo_first_ok hh2]
    have hk1 : Bedrock.runKey1 s net msgs sys = ([], .skipped) := by
      simp [Bedrock.runKey1, h1]
    have hk2 : Bedrock.runKey2 s boto msgs sys = ([], .skipped) := by
      simp [Bedrock.runKey2, h2]
    have hk3 : Bedrock.runKey3 s net msgs sys =
        ([⟨Bedrock.Cred.absk, "us-west-2", Bedrock.MODEL_SONNET_46,
           Bedrock.build_body msgs sys,
           .error (.runtime
             (Bedrock.httpFailMsg 429 ("absk_personal/" ++ "us-west-2") tx1))⟩,
          ⟨Bedrock.Cred.absk, "us-east-1", Bedrock.MODEL_SONNET_46,
           Bedrock.build_body msgs sys, .ok r⟩],
         .success r) := by
      simp [Bedrock.runKey3, h3, hch]
    have heq := @Bedrock.invokeRun_eq_pass1 s net boto msgs sys _ _ hk1 (Or.inr rfl)
    rw [heq, Bedrock.runKey23_eq_key3_success hk2 (Or.inr rfl) hk3]
    simp [Bedrock.stepErrors]
  · intro mm model m rest last hm hcont
    exact MiniMax.invokeGo_continue rest last hm hcont

/-- Witness for the amended C3 at concrete inputs: Scenario B with the
`netB` oracle, and a MiniMax 404 failure continuing to the next model. -/
theorem C3_transient_fallback_amended_witness :
    (sAbskOnly.aws_bearer_token_bedrock = "" ∧ sAbskOnly.aws_access_key_id = "" ∧
     sAbskOnly.aws_bedrock_api_key_backup ≠ "" ∧
     netB "absk-tok" "us-west-2" Bedrock.MODEL_SONNET_46 =
       HttpOutcome.resp 429 "Too many requests" errData ∧
     Bedrock.abskStop
       (Bedrock.httpFailMsg 429 ("absk_personal/" ++ "us-west-2") "Too many requests") =
       false ∧
     netB "absk-tok" "us-east-1" Bedrock.MODEL_SONNET_46 = HttpOutcome.resp 200 "" okData ∧
     Bedrock.parseResponse okData = .ok okResult ∧
     (Bedrock.invokeRun sAbskOnly netB botoNone [] none).2.2 = .ok okResult ∧
     (Bedrock.invokeRun sAbskOnly netB botoNone [] none).1.map
         (fun a => (a.method, a.region, a.model)) =
       [(Bedrock.Cred.absk, "us-west-2", Bedrock.MODEL_SONNET_46),
        (Bedrock.Cred.absk, "us-east-1", Bedrock.MODEL_SONNET_46)]) ∧
    (mm404 "MiniMax-M2.5-highspeed" = .exn "404 model_not_found" ∧
     MiniMax.modelNotFound "404 model_not_found" = true ∧
     MiniMax.invokeGo mm404 ("MiniMax-M2.5-highspeed" :: ["MiniMax-M2.5"])
         (.runtime "No models tried") =
       ("MiniMax-M2.5-highspeed" ::
          (MiniMax.invokeGo mm404 ["MiniMax-M2.5"] (.other "404 model_not_found")).1,
        (MiniMax.invokeGo mm404 ["MiniMax-M2.5"] (.other "404 model_not_found")).2)) := by
  constructor
  · have h := C3_transient_fallback_amended.2.1 sAbskOnly netB botoNone [] none
      "Too many requests" errData "" okData okResult rfl rfl (by decide) rfl (by decide)
      rfl (by rfl)
    exact ⟨rfl, rfl, by decide, rfl, by decide, rfl, by rfl, h.1, h.2⟩
  · exact ⟨rfl, by decide,
      C3_transient_fallback_amended.2.2 mm404 "MiniMax-M2.5-highspeed"
        "404 model_not_found" ["MiniMax-M2.5"] (.runtime "No models tried") rfl (by decide)⟩

/-- C4: empty-credential skip.  For every run, a descriptor whose secret
material is empty contributes nothing: if the bearer token is empty no
attempt is a bearer attempt and no captured error entry is a bearer
entry; if either IAM key is empty the same holds for the boto3
descriptor; if the ABSK key is empty the same holds for the ABSK
descriptor.  Error entries are characterised by the descriptor prefix
the code prepends when capturing them. -/
theorem C4_empty_credential_skip (s : Settings) (net : Net) (boto : BotoNet)
    (msgs : List Message) (sys : Option String) :
    (s.aws_bearer_token_bedrock = "" →
      (∀ a ∈ (Bedrock.invokeRun s net boto msgs sys).1,
        a.method ≠ Bedrock.Cred.bearer) ∧
      (∀ e ∈ (Bedrock.invokeRun s net boto msgs sys).2.1,
        (∃ m, e = "boto3_event: " ++ m) ∨ (∃ m, e = "absk: " ++ m))) ∧
    ((s.aws_access_key_id = "" ∨ s.aws_secret_access_key = "") →
      (∀ a ∈ (Bedrock.invokeRun s net boto msgs sys).1,
        a.method ≠ Bedrock.Cred.boto3) ∧
      (∀ e ∈ (Bedrock.invokeRun s net boto msgs sys).2.1,
        (∃ m, e = "bearer: " ++ m) ∨ (∃ m, e = "absk: " ++ m))) ∧
    (s.aws_bedrock_api_key_backup = "" →
      (∀ a ∈ (Bedrock.invokeRun s net boto msgs sys).1,
        a.method ≠ Bedrock.Cred.absk) ∧
      (∀ e ∈ (Bedrock.invokeRun s net boto msgs sys).2.1,
        (∃ m, e = "bearer: " ++ m) ∨ (∃ m, e = "boto3_event: " ++ m))) := by
  refine ⟨fun h => ⟨fun a ha => ?_, fun e he => ?_⟩,
          fun h => ⟨fun a ha => ?_, fun e he => ?_⟩,
          fun h => ⟨fun a ha => ?_, fun e he => ?_⟩⟩
  · rcases (Bedrock.invokeRun_trace_tags a ha).2 with ⟨_, hp⟩ | ⟨hm, _⟩ | ⟨hm, _⟩
    · exact absurd h hp
    · rw [hm]; simp
    · rw [hm]; simp
  · rcases Bedrock.invokeRun_errors e he with ⟨m, _, hp⟩ | ⟨m, hm, _⟩ | ⟨m, hm, _⟩
    · exact absurd h hp
    · exact Or.inl ⟨m, hm⟩
    · exact Or.inr ⟨m, hm⟩
  · rcases (Bedrock.invokeRun_trace_tags a ha).2 with ⟨hm, _⟩ | ⟨_, hpa, hps⟩ | ⟨hm, _⟩
    · rw [hm]; simp
    · rcases h with h | h
      · exact absurd h hpa
      · exact absurd h hps
    · rw [hm]; simp
  · rcases Bedrock.invokeRun_errors e he with ⟨m, hm, _⟩ | ⟨m, _, hpa, hps⟩ | ⟨m, hm, _⟩
    · exact Or.inl ⟨m, hm⟩
    · rcases h with h | h
      · exact absurd h hpa
      · exact absurd h hps
    · exact Or.inr ⟨m, hm⟩
  · rcases (Bedrock.invokeRun_trace_tags a ha).2 with ⟨hm, _⟩ | ⟨hm, _⟩ | ⟨_, hp⟩
    · rw [hm]; simp
    · rw [hm]; simp
    · exact absurd h hp
  · rcases Bedrock.invokeRun_errors e he with ⟨m, hm, _⟩ | ⟨m, hm, _⟩ | ⟨m, _, hp⟩
    · exact Or.inl ⟨m, hm⟩
    · exact Or.inr ⟨m, hm⟩
    · exact absurd h hp

/-- Witness for C4 at a concrete input: only the ABSK key present, every
call failing 404 — the bearer and boto3 descriptors are never attempted
and contribute nothing to the error list. -/
theorem C4_empty_credential_skip_witness :
    sAbskOnly.aws_bearer_token_bedrock = "" ∧
    (sAbskOnly.aws_access_key_id = "" ∨ sAbskOnly.aws_secret_access_key = "") ∧
    (∀ a ∈ (Bedrock.invokeRun sAbskOnly net404 botoNone [] none).1,
      a.method ≠ Bedrock.Cred.bearer) ∧
    (∀ a ∈ (Bedrock.invokeRun sAbskOnly net404 botoNone [] none).1,
      a.method ≠ Bedrock.Cred.boto3) ∧
    (∀ e ∈ (Bedrock.invokeRun sAbskOnly net404 botoNone [] none).2.1,
      (∃ m, e = "boto3_event: " ++ m) ∨ (∃ m, e = "absk: " ++ m)) := by
  have h := C4_empty_credential_skip sAbskOnly net404 botoNone [] none
  exact ⟨rfl, Or.inl rfl, (h.1 rfl).1, (h.2.1 (Or.inl rfl)).1, (h.1 rfl).2⟩

/-- C5 counterexample: the captured failure messages are NOT all
truncated to ~150-200 characters.  With only the IAM descriptor present
and every boto3 attempt raising a 210-character exception text that
matches neither fast-fail trigger, the captured entry and hence the
aggregate error message embed all 210 characters untruncated. -/
theorem C5_counterexample :
    botoLongMsg.length = 210 ∧
    botoLongMsg.take 200 ≠ botoLongMsg ∧
    (Bedrock.invokeRun sIamOnly net404 botoC5 [] none).2.1 =
      ["boto3_event: " ++ botoLongMsg] ∧
    (Bedrock.invokeRun sIamOnly net404 botoC5 [] none).2.2 =
      .error (.runtime (Bedrock.allFailedMsg ["boto3_event: " ++ botoLongMsg])) := by
  refine ⟨by decide, by decide, by rfl, by rfl⟩

/-- C5 amended: when every HTTP attempt fails with a non-200 status and
every boto3 attempt raises, `invoke` raises exactly one aggregate
RuntimeError whose message is the fixed diagnostic preamble followed by
the captured per-descriptor failure messages (at most the first 3,
joined by a semicolon); there is exactly one captured entry per present
descriptor, prefixed with the descriptor label; the bearer and ABSK
entries embed the provider body truncated to 200 characters, while a
boto3 entry embeds the exception text with no further truncation (see
the counterexample for an untruncated 210-character body). -/
theorem C5_exhaustion_aggregate_amended (s : Settings) (net : Net) (boto : BotoNet)
    (msgs : List Message) (sys : Option String)
    (hf : Bedrock.NetAllFail net) (hfb : Bedrock.BotoAllFail boto) :
    (Bedrock.invokeRun s net boto msgs sys).2.2 =
      .error (.runtime (Bedrock.allFailedMsg ((Bedrock.invokeRun s net boto msgs sys).2.1))) ∧
    ((Bedrock.invokeRun s net boto msgs sys).2.1).take 3 =
      (Bedrock.invokeRun s net boto msgs sys).2.1 ∧
    ((Bedrock.invokeRun s net boto msgs sys).2.1).length =
      ((if s.aws_bearer_token_bedrock ≠ "" then 1 else 0) +
       (if s.aws_access_key_id ≠ "" ∧ s.aws_secret_access_key ≠ "" then 1 else 0) +
       (if s.aws_bedrock_api_key_backup ≠ "" then 1 else 0)) ∧
    ∀ e ∈ (Bedrock.invokeRun s net boto msgs sys).2.1,
      (∃ (region : String) (st : Nat) (tx : String), e = "bearer: " ++
        (toString st ++ " [" ++ ("bearer_hackathon/" ++ region) ++ "]: " ++ tx.take 200)) ∨
      (∃ m, e = "boto3_event: " ++ m) ∨
      (∃ (region : String) (st : Nat) (tx : String), e = "absk: " ++
        (toString st ++ " [" ++ ("absk_personal/" ++ region) ++ "]: " ++ tx.take 200)) := by
  rcases @Bedrock.runKey1_allfail s net msgs sys hf with ⟨hp1, hk1⟩ |
      ⟨hp1, t1, rg1, st1, tx1, hk1⟩ <;>
    rcases @Bedrock.runKey2_allfail s boto msgs sys hfb with ⟨hp2, hk2⟩ |
      ⟨hp2, t2, m2, hk2⟩ <;>
    rcases @Bedrock.runKey3_allfail s net msgs sys hf with ⟨hp3, hk3⟩ |
      ⟨hp3, t3, rg3, st3, tx3, hk3⟩
  · have heq := @Bedrock.invokeRun_eq_pass1 s net boto msgs sys _ _ hk1 (Or.inr rfl)
    simp only [Bedrock.stepErrors] at heq
    have hr23 := @Bedrock.runKey23_eq_key3_skipped s net boto msgs sys ([] : List String) _ _ _ hk2 (Or.inr rfl) hk3
    refine ⟨?_, ?_, ?_, ?_⟩
    · rw [heq, hr23] <;> simp [Bedrock.stepErrors]
    · rw [heq, hr23] <;> simp [Bedrock.stepErrors]
    · rw [heq, hr23] <;> simp [Bedrock.stepErrors, hp1, hp2, hp3]
    · rw [heq, hr23]
      intro e he
      simp [Bedrock.stepErrors] at he
  · have heq := @Bedrock.invokeRun_eq_pass1 s net boto msgs sys _ _ hk1 (Or.inr rfl)
    simp only [Bedrock.stepErrors] at heq
    have hr23 := @Bedrock.runKey23_eq_key3_captured s net boto msgs sys ([] : List String) _ _ _ _ hk2 (Or.inr rfl) hk3
    refine ⟨?_, ?_, ?_, ?_⟩
    · rw [heq, hr23] <;> simp [Bedrock.stepErrors]
    · rw [heq, hr23] <;> simp [Bedrock.stepErrors]
    · rw [heq, hr23] <;> simp [Bedrock.stepErrors, hp1, hp2, hp3]
    · rw [heq, hr23]
      intro e he
      simp [Bedrock.stepErrors] at he
      rw [he]
      exact Or.inr (Or.inr ⟨rg3, st3, tx3, rfl⟩)
  · have heq := @Bedrock.invokeRun_eq_pass1 s net boto msgs sys _ _ hk1 (Or.inr rfl)
    simp only [Bedrock.stepErrors] at heq
    have hr23 := @Bedrock.runKey23_eq_key3_skipped s net boto msgs sys ([] : List String) _ _ _ hk2 (Or.inl ⟨_, rfl⟩) hk3
    refine ⟨?_, ?_, ?_, ?_⟩
    · rw [heq, hr23] <;> simp [Bedrock.stepErrors]
    · rw [heq, hr23] <;> simp [Bedrock.stepErrors]
    · rw [heq, hr23] <;> simp [Bedrock.stepErrors, hp1, hp2, hp3]
    · rw [heq, hr23]
      intro e he
      simp [Bedrock.stepErrors] at he
      rw [he]
      exact Or.inr (Or.inl ⟨m2, rfl⟩)
  · have heq := @Bedrock.invokeRun_eq_pass1 s net boto msgs sys _ _ hk1 (Or.inr rfl)
    simp only [Bedrock.stepErrors] at heq
    have hr23 := @Bedrock.runKey23_eq_key3_captured s net boto msgs sys ([] : List String) _ _ _ _ hk2 (Or.inl ⟨_, rfl⟩) hk3
    refine ⟨?_, ?_, ?_, ?_⟩
    · rw [heq, hr23] <;> simp [Bedrock.stepErrors]
    · rw [heq, hr23] <;> simp [Bedrock.stepErrors]
    · rw [heq, hr23] <;> simp [Bedrock.stepErrors, hp1, hp2, hp3]
    · rw [heq, hr23]
      intro e he
      simp [Bedrock.stepErrors] at he
      rcases he with h | h
      · exact Or.inr (Or.inl ⟨m2, h⟩)
      · exact Or.inr (Or.inr ⟨rg3, st3, tx3, h⟩)
  · have heq := @Bedrock.invokeRun_eq_pass1 s net boto msgs sys _ _ hk1 (Or.inl ⟨_, rfl⟩)
    simp only [Bedrock.stepErrors] at heq
    have hr23 := @Bedrock.runKey23_eq_key3_skipped s net boto msgs sys ["bearer: " ++ Bedrock.httpFailMsg st1 ("bearer_hackathon/" ++ rg1) tx1] _ _ _ hk2 (Or.inr rfl) hk3
    refine ⟨?_, ?_, ?_, ?_⟩
    · rw [heq, hr23] <;> simp [Bedrock.stepErrors]
    · rw [heq, hr23] <;> simp [Bedrock.stepErrors]
    · rw [heq, hr23] <;> simp [Bedrock.stepErrors, hp1, hp2, hp3]
    · rw [heq, hr23]
      intro e he
      simp [Bedrock.stepErrors] at he
      rw [he]
      exact Or.inl ⟨rg1, st1, tx1, rfl⟩
  · have heq := @Bedrock.invokeRun_eq_pass1 s net boto msgs sys _ _ hk1 (Or.inl ⟨_, rfl⟩)
    simp only [Bedrock.stepErrors] at heq
    have hr23 := @Bedrock.runKey23_eq_key3_captured s net boto msgs sys ["bearer: " ++ Bedrock.httpFailMsg st1 ("bearer_hackathon/" ++ rg1) tx1] _ _ _ _ hk2 (Or.inr rfl) hk3
    refine ⟨?_, ?_, ?_, ?_⟩
    · rw [heq, hr23] <;> simp [Bedrock.stepErrors]
    · rw [heq, hr23] <;> simp [Bedrock.stepErrors]
    · rw [heq, hr23] <;> simp [Bedrock.stepErrors, hp1, hp2, hp3]
    · rw [heq, hr23]
      intro e he
      simp [Bedrock.stepErrors] at he
      rcases he with h | h
      · exact Or.inl ⟨rg1, st1, tx1, h⟩
      · exact Or.inr (Or.inr ⟨rg3, st3, tx3, h⟩)
  · have heq := @Bedrock.invokeRun_eq_pass1 s net boto msgs sys _ _ hk1 (Or.inl ⟨_, rfl⟩)
    simp only [Bedrock.stepErrors] at heq
    have hr23 := @Bedrock.runKey23_eq_key3_skipped s net boto msgs sys ["bearer: " ++ Bedrock.httpFailMsg st1 ("bearer_hackathon/" ++ rg1) tx1] _ _ _ hk2 (Or.inl ⟨_, rfl⟩) hk3
    refine ⟨?_, ?_, ?_, ?_⟩
    · rw [heq, hr23] <;> simp [Bedrock.stepErrors]
    · rw [heq, hr23] <;> simp [Bedrock.stepErrors]
    · rw [heq, hr23] <;> simp [Bedrock.stepErrors, hp1, hp2, hp3]
    · rw [heq, hr23]
      intro e he
      simp [Bedrock.stepErrors] at he
      rcases he with h | h
      · exact Or.inl ⟨rg1, st1, tx1, h⟩
      · exact Or.inr (Or.inl ⟨m2, h⟩)
  · have heq := @Bedrock.invokeRun_eq_pass1 s net boto msgs sys _ _ hk1 (Or.inl ⟨_, rfl⟩)
    simp only [Bedrock.stepErrors] at heq
    have hr23 := @Bedrock.runKey23_eq_key3_captured s net boto msgs sys ["bearer: " ++ Bedrock.httpFailMsg st1 ("bearer_hackathon/" ++ rg1) tx1] _ _ _ _ hk2 (Or.inl ⟨_, rfl⟩) hk3
    refine ⟨?_, ?_, ?_, ?_⟩
    · rw [heq, hr23] <;> simp [Bedrock.stepErrors]
    · rw [heq, hr23] <;> simp [Bedrock.stepErrors]
    · rw [heq, hr23] <;> simp [Bedrock.stepErrors, hp1, hp2, hp3]
    · rw [heq, hr23]
      intro e he
      simp [Bedrock.stepErrors] at he
      rcases he with h | h | h
      · exact Or.inl ⟨rg1, st1, tx1, h⟩
      · exact Or.inr (Or.inl ⟨m2, h⟩)
      · exact Or.inr (Or.inr ⟨rg3, st3, tx3, h⟩)

/-- Witness for the amended C5 at a concrete input: all descriptors
present, every HTTP call answering 404 and every boto3 call raising. -/
theorem C5_exhaustion_aggregate_amended_witness :
    Bedrock.NetAllFail net404 ∧ Bedrock.BotoAllFail botoC5 ∧
    ((Bedrock.invokeRun sAll net404 botoC5 [] none).2.2 =
      .error (.runtime
        (Bedrock.allFailedMsg ((Bedrock.invokeRun sAll net404 botoC5 [] none).2.1))) ∧
     ((Bedrock.invokeRun sAll net404 botoC5 [] none).2.1).take 3 =
       (Bedrock.invokeRun sAll net404 botoC5 [] none).2.1 ∧
     ((Bedrock.invokeRun sAll net404 botoC5 [] none).2.1).length =
       ((if sAll.aws_bearer_token_bedrock ≠ "" then 1 else 0) +
        (if sAll.aws_access_key_id ≠ "" ∧ sAll.aws_secret_access_key ≠ "" then 1 else 0) +
        (if sAll.aws_bedrock_api_key_backup ≠ "" then 1 else 0)) ∧
     ∀ e ∈ (Bedrock.invokeRun sAll net404 botoC5 [] none).2.1,
       (∃ (region : String) (st : Nat) (tx : String), e = "bearer: " ++
         (toString st ++ " [" ++ ("bearer_hackathon/" ++ region) ++ "]: " ++ tx.take 200)) ∨
       (∃ m, e = "boto3_event: " ++ m) ∨
       (∃ (region : String) (st : Nat) (tx : String), e = "absk: " ++
         (toString st ++ " [" ++ ("absk_personal/" ++ region) ++ "]: " ++ tx.take 200))) := by
  have hf : Bedrock.NetAllFail net404 :=
    fun _ _ _ => ⟨404, "model not found", errData, rfl, by decide⟩
  have hfb : Bedrock.BotoAllFail botoC5 := fun _ _ => ⟨botoLongMsg, rfl⟩
  exact ⟨hf, hfb, C5_exhaustion_aggregate_amended sAll net404 botoC5 [] none hf hfb⟩

/-- C6 counterexample: with an input containing exactly one system entry
whose content is the empty string and three user/assistant entries, the
`system` field of the built request body is NOT the extracted content: the
Python `system or SYSTEM_PROMPT` treats the empty string as falsy and
substitutes the default prompt. -/
theorem C6_counterexample :
    (Debate.inferSplit msgsD).1 = some "" ∧
    (Bedrock.build_body (Debate.inferSplit msgsD).2 (Debate.inferSplit msgsD).1).system =
      Bedrock.SYSTEM_PROMPT ∧
    Bedrock.SYSTEM_PROMPT ≠ "" := by
  exact ⟨rfl, by rfl, by decide⟩

/-- C6 amended: for every message list with exactly one system entry,
the split keeps the non-system entries in order, the `messages` field of
the built body is exactly those entries, the `system` field of the body is
the extracted content when it is non-empty and the default SYSTEM_PROMPT
when it is empty, and every network attempt of a subsequent invoke run
carries that body. -/
theorem C6_system_extraction_amended (pre post : List Message) (ms : Message)
    (hms : ms.role = "system")
    (hpre : ∀ m ∈ pre, m.role ≠ "system")
    (hpost : ∀ m ∈ post, m.role ≠ "system") :
    Debate.inferSplit (pre ++ ms :: post) = (some ms.content, pre ++ post) ∧
    (Bedrock.build_body (pre ++ post) (some ms.content)).messages = pre ++ post ∧
    (Bedrock.build_body (pre ++ post) (some ms.content)).system =
      (if ms.content = "" then Bedrock.SYSTEM_PROMPT else ms.content) ∧
    ∀ (s : Settings) (net : Net) (boto : BotoNet),
      ∀ a ∈ (Bedrock.invokeRun s net boto (pre ++ post) (some ms.content)).1,
        a.body = Bedrock.build_body (pre ++ post) (some ms.content) := by
  refine ⟨Debate.inferSplit_single_system hms hpre hpost, rfl, rfl, ?_⟩
  intro s net boto a ha
  exact (Bedrock.invokeRun_trace_tags a ha).1

/-- Witness for the amended C6 at a concrete Scenario D input: a
non-empty system entry followed by three user/assistant entries. -/
theorem C6_system_extraction_amended_witness :
    (⟨"system", "Be brief"⟩ : Message).role = "system" ∧
    Debate.inferSplit
        ([] ++ (⟨"system", "Be brief"⟩ : Message) ::
          [⟨"user", "a"⟩, ⟨"assistant", "b"⟩, ⟨"user", "c"⟩]) =
      (some "Be brief", [] ++ [⟨"user", "a"⟩, ⟨"assistant", "b"⟩, ⟨"user", "c"⟩]) ∧
    (Bedrock.build_body ([] ++ [⟨"user", "a"⟩, ⟨"assistant", "b"⟩, ⟨"user", "c"⟩])
        (some "Be brief")).system =
      (if ("Be brief" : String) = "" then Bedrock.SYSTEM_PROMPT else "Be brief") := by
  have h := C6_system_extraction_amended []
    [⟨"user", "a"⟩, ⟨"assistant", "b"⟩, ⟨"user", "c"⟩] ⟨"system", "Be brief"⟩
    rfl (by simp) (by decide)
  exact ⟨rfl, h.1, h.2.2.1⟩

/-- C7 counterexample: the two provider clients do not normalize content
identically.  On a response whose content is two text blocks `a`, `b`,
the Bedrock parser yields the newline-joined `a\nb` while the MiniMax
client concatenates with no separator, yielding `ab`. -/
theorem C7_counterexample :
    Bedrock.parseResponse ⟨abBlocks, none, none, none⟩ =
      .ok ⟨"a\nb", Bedrock.MODEL_SONNET_46, 0, 0, ""⟩ ∧
    (MiniMax.invoke "k" mmAB).2 =
      .ok ⟨"ab", "minimax/MiniMax-M2.5-highspeed", 1, 2, "end_turn"⟩ ∧
    ("ab" : String) ≠ "a\nb" := by
  exact ⟨by rfl, by rfl, by decide⟩

/-- C7 amended: the Bedrock parser joins the text of the text-typed
blocks, in order, with a newline (empty when there are none), provided
every text-typed block carries a text entry; the MiniMax client instead
concatenates, with NO separator, the text of every block that has a
text attribute — the two normalizations are not identical. -/
theorem C7_content_normalization_amended :
    (∀ data : RespData,
       (∀ b ∈ data.content, b.type = some "text" → b.text ≠ none) →
       ∃ r, Bedrock.parseResponse data = .ok r ∧
         r.content = String.intercalate "\n" (Bedrock.textsOf data.content) ∧
         (Bedrock.textsOf data.content = [] → r.content = "")) ∧
    (∀ (apiKey : String) (mm : MiniMax.MMNet) (resp : MiniMax.MMResp),
       apiKey ≠ "" → mm "MiniMax-M2.5-highspeed" = .ok resp →
       ∃ r, (MiniMax.invoke apiKey mm).2 = .ok r ∧
         r.content = String.join (resp.content.filterMap Block.text)) := by
  constructor
  · intro data h
    refine ⟨_, Bedrock.parseResponse_ok h, rfl, fun h0 => ?_⟩
    show String.intercalate "\n" (Bedrock.textsOf data.content) = ""
    rw [h0]
    rfl
  · intro apiKey mm resp hk hm
    refine ⟨⟨MiniMax.extractContent resp.content, "minimax/" ++ "MiniMax-M2.5-highspeed",
        resp.usage_input.getD 0, resp.usage_output.getD 0,
        resp.stop_reason.getD "end_turn"⟩, ?_, ?_⟩
    · rw [MiniMax.invoke_first_ok hk hm]
    · exact MiniMax.extractContent_eq resp.content

/-- Witness for the amended C7 at the concrete two-text-block input. -/
theorem C7_content_normalization_amended_witness :
    (∀ b ∈ (⟨abBlocks, none, none, none⟩ : RespData).content,
      b.type = some "text" → b.text ≠ none) ∧
    (∃ r, Bedrock.parseResponse ⟨abBlocks, none, none, none⟩ = .ok r ∧
      r.content = String.intercalate "\n"
        (Bedrock.textsOf (⟨abBlocks, none, none, none⟩ : RespData).content) ∧
      (Bedrock.textsOf (⟨abBlocks, none, none, none⟩ : RespData).content = [] →
        r.content = "")) ∧
    ("k" : String) ≠ "" ∧ mmAB "MiniMax-M2.5-highspeed" = .ok mmRespAB ∧
    (∃ r, (MiniMax.invoke "k" mmAB).2 = .ok r ∧
      r.content = String.join (mmRespAB.content.filterMap Block.text)) := by
  have h1 : ∀ b ∈ (⟨abBlocks, none, none, none⟩ : RespData).content,
      b.type = some "text" → b.text ≠ none := by decide
  refine ⟨h1, C7_content_normalization_amended.1 ⟨abBlocks, none, none, none⟩ h1,
    by decide, rfl, C7_content_normalization_amended.2 "k" mmAB mmRespAB (by decide) rfl⟩

/-- C8 counterexample: the model fallback is the fixed constant
MODEL_SONNET_46, not the model requested for the attempt.  With a single
ABSK descriptor, the two sonnet candidates answer 429 and the third
candidate — requesting the haiku model — answers 200 with a body that
omits the model field; the returned result names the sonnet constant,
not the requested haiku model. -/
theorem C8_counterexample :
    (Bedrock.invokeRun sAbskOnly netC8 botoNone [] none).1.map
        (fun a => (a.region, a.model)) =
      [("us-west-2", Bedrock.MODEL_SONNET_46), ("us-east-1", Bedrock.MODEL_SONNET_46),
       ("us-west-2", Bedrock.MODEL_HAIKU_35)] ∧
    netC8 "absk-tok" "us-west-2" Bedrock.MODEL_HAIKU_35 =
      HttpOutcome.resp 200 "" noModelData ∧
    noModelData.model = none ∧
    (Bedrock.invokeRun sAbskOnly netC8 botoNone [] none).2.2 =
      .ok ⟨"OK", Bedrock.MODEL_SONNET_46, 7, 2, "end_turn"⟩ ∧
    Bedrock.MODEL_SONNET_46 ≠ Bedrock.MODEL_HAIKU_35 := by
  exact ⟨by rfl, rfl, rfl, by rfl, by decide⟩

/-- C8 amended: `_parse_response` takes only the response body; when the
body omits the model field the model of the result is the fixed constant
MODEL_SONNET_46 (`us.anthropic.claude-sonnet-4-6`), irrespective of the
requested model; when the body carries a model it is returned
unchanged. -/
theorem C8_model_fallback_amended (data : RespData) (r : InvocationResult)
    (h : Bedrock.parseResponse data = .ok r) :
    (data.model = none → r.model = Bedrock.MODEL_SONNET_46) ∧
    (∀ m, data.model = some m → r.model = m) := by
  rcases htp : Bedrock.textParts data.content with e | parts
  · rw [Bedrock.parseResponse, htp] at h
    simp at h
  · rw [Bedrock.parseResponse, htp] at h
    cases h
    refine ⟨fun hm => ?_, fun m hm => ?_⟩ <;> simp [hm]

/-- Witness for the amended C8 at concrete inputs with and without a
model field. -/
theorem C8_model_fallback_amended_witness :
    Bedrock.parseResponse noModelData =
      .ok ⟨"OK", Bedrock.MODEL_SONNET_46, 7, 2, "end_turn"⟩ ∧
    noModelData.model = none ∧
    (⟨"OK", Bedrock.MODEL_SONNET_46, 7, 2, "end_turn"⟩ : InvocationResult).model =
      Bedrock.MODEL_SONNET_46 := by
  refine ⟨by rfl, rfl, ?_⟩
  exact (C8_model_fallback_amended noModelData
    ⟨"OK", Bedrock.MODEL_SONNET_46, 7, 2, "end_turn"⟩ (by rfl)).1 rfl

/-- C9 counterexample: not every liveness-probe network call carries an
explicit timeout of at most 8 seconds — the MiniMax TTS probe in
`test_keys_live` passes `timeout=15`. -/
theorem C9_counterexample :
    Health.healthProbeCalls[2]? = some ⟨"minimax_tts_t2a", some 15⟩ ∧
    ¬((15 : Nat) ≤ 8) := by
  exact ⟨rfl, by decide⟩

/-- C9 amended: every live-probe call that sets an explicit timeout sets
it to at most 15 seconds — the Bedrock HTTP quick probe uses 5 s and the
two Datadog probes 8 s (within the claimed 8-second bound), but the
MiniMax TTS probe uses 15 s, and the boto3 and MiniMax chat probe calls
set no explicit timeout at all. -/
theorem C9_probe_timeouts_amended :
    (Health.healthProbeCalls.all fun c => c.timeout.getD 0 ≤ 15) = true ∧
    Health.healthProbeCalls[0]? = some ⟨"bedrock_http_quick", some 5⟩ ∧
    Health.healthProbeCalls[3]? = some ⟨"datadog_validate", some 8⟩ ∧
    Health.healthProbeCalls[4]? = some ⟨"datadog_dashboard", some 8⟩ ∧
    Health.healthProbeCalls[2]? = some ⟨"minimax_tts_t2a", some 15⟩ ∧
    (Health.healthProbeCalls.filter fun c => c.timeout.isNone).map
        Health.ProbeCall.service =
      ["bedrock_boto3_invoke_model", "minimax_chat_messages_create"] := by
  exact ⟨by decide, rfl, rfl, rfl, rfl, by rfl⟩

/-- C10: `_parse_response` is partial exactly on bodies whose content
list has a text-typed block without a text entry — there it raises
KeyError — and returns a complete normalized record (the
InvocationResult fields content, model, input_tokens, output_tokens,
stop_reason) on every other structurally well-typed body. -/
theorem C10_parse_partiality (data : RespData) :
    ((∃ b ∈ data.content, b.type = some "text" ∧ b.text = none) →
      Bedrock.parseResponse data = .error (.keyError "text")) ∧
    ((∀ b ∈ data.content, b.type = some "text" → b.text ≠ none) →
      ∃ r, Bedrock.parseResponse data = .ok r) :=
  ⟨fun h => Bedrock.parseResponse_bad h, fun h => ⟨_, Bedrock.parseResponse_ok h⟩⟩

/-- Witness for C10 at concrete inputs: a malformed text block raises,
a well-formed body parses. -/
theorem C10_parse_partiality_witness :
    (∃ b ∈ badBlockData.content, b.type = some "text" ∧ b.text = none) ∧
    Bedrock.parseResponse badBlockData = .error (.keyError "text") ∧
    (∀ b ∈ okData.content, b.type = some "text" → b.text ≠ none) ∧
    ∃ r, Bedrock.parseResponse okData = .ok r := by
  have h1 : ∃ b ∈ badBlockData.content, b.type = some "text" ∧ b.text = none :=
    ⟨⟨some "text", none⟩, by simp [badBlockData], rfl, rfl⟩
  have h2 : ∀ b ∈ okData.content, b.type = some "text" → b.text ≠ none := by decide
  exact ⟨h1, (C10_parse_partiality badBlockData).1 h1, h2,
    (C10_parse_partiality okData).2 h2⟩
